import Mathlib

/-!
Shallow embedding of the data-preparation pipeline of
`prediccion_preparacion_pandemias` (pandas-based Kedro nodes:
`pipelines/data_engineering/nodes.py` and `pipelines/data_cleaning/nodes.py`),
together with proofs of the specification claims about it.

A table (`DataFrame`) is a list of column names plus a list of rows, each row
a positional list of cell values.  A cell value is a string, a rational
number, a signed infinity (as produced by float division), or the missing
marker `na` (pandas `NaN`).  Fallible pandas operations (column access on an
absent column, `groupby` on an absent key) are modelled with `Option` /
`Except`.
-/

/-- A cell value of a pandas table: text, a (rational) number, a signed
infinity produced by float arithmetic, or the missing marker (`NaN`). -/
inductive Val where
  | str (s : String)
  | num (q : ℚ)
  | pinf
  | minf
  | na
deriving DecidableEq

namespace Val

/-- Constructor rank used for cross-kind comparison when sorting; `na` sorts
last, matching pandas `na_position="last"` default of `sort_values`. -/
def rank : Val → Nat
  | str _ => 0
  | minf => 1
  | num _ => 2
  | pinf => 3
  | na => 4

/-- Boolean "less or equal" used to model `sort_values` comparisons:
strings lexicographically, numbers by value, `na` last. -/
def leb : Val → Val → Bool
  | str a, str b => decide (a ≤ b)
  | num a, num b => decide (a ≤ b)
  | x, y => decide (x.rank ≤ y.rank)

/-- Numeric view of a cell. -/
def toNum : Val → Option ℚ
  | num q => some q
  | _ => none

/-- Division of two cells, following IEEE/numpy float semantics on the cases
the pipeline exercises: `x / 0` is a signed infinity for nonzero `x`, `0 / 0`
is `NaN`, `NaN` propagates, `x / ±∞ = 0`.  Non-numeric operands yield `na`. -/
def vdiv : Val → Val → Val
  | num a, num b =>
      if b = 0 then (if 0 < a then pinf else if a < 0 then minf else na)
      else num (a / b)
  | pinf, num b => if b < 0 then minf else pinf
  | minf, num b => if b < 0 then pinf else minf
  | num _, pinf => num 0
  | num _, minf => num 0
  | _, _ => na

/-- Multiplication of two cells (float semantics; `NaN` propagates,
`±∞ · 0 = NaN`).  Non-numeric operands yield `na`. -/
def vmul : Val → Val → Val
  | num a, num b => num (a * b)
  | pinf, num b => if 0 < b then pinf else if b < 0 then minf else na
  | num a, pinf => if 0 < a then pinf else if a < 0 then minf else na
  | minf, num b => if 0 < b then minf else if b < 0 then pinf else na
  | num a, minf => if 0 < a then minf else if a < 0 then pinf else na
  | pinf, pinf => pinf
  | minf, minf => pinf
  | pinf, minf => minf
  | minf, pinf => minf
  | _, _ => na

/-- Subtraction of two cells (float semantics; `NaN` propagates,
`∞ - ∞ = NaN`).  Non-numeric operands yield `na`. -/
def vsub : Val → Val → Val
  | num a, num b => num (a - b)
  | pinf, num _ => pinf
  | minf, num _ => minf
  | num _, pinf => minf
  | num _, minf => pinf
  | pinf, minf => pinf
  | minf, pinf => minf
  | _, _ => na

/-- `Series.fillna(v)` on one cell: replace the missing marker by `v`. -/
def fillnaV (v : Val) : Val → Val :=
  fun x => if x = na then v else x

/-- `Series.replace([np.inf, -np.inf], 0)` on one cell. -/
def replInf0 : Val → Val
  | pinf => num 0
  | minf => num 0
  | v => v

end Val

/-- Lexicographic "less or equal" on a `(country, date)` key pair, as used by
`sort_values(["country", "date"])`. -/
def keyLeb (a b : Val × Val) : Bool :=
  if a.1.leb b.1 then (if b.1.leb a.1 then a.2.leb b.2 else true) else false

/-- A pandas `DataFrame`: named columns and positional rows.  The row index is
positional (`reset_index(drop=True)` semantics are implicit: row `i` of the
list is the row with index `i`, always contiguous). -/
structure DataFrame where
  cols : List String
  rows : List (List Val)
deriving DecidableEq

/-- Cell of one row at a named column, given the frame's column list; the
first occurrence of the name is used (pandas column lookup). -/
def cellRow (cols : List String) (r : List Val) (c : String) : Val :=
  match cols.findIdx? (· == c) with
  | some j => r.getD j .na
  | none => .na

namespace DataFrame

/-- Cell at row `i`, named column `c`. -/
def cell (df : DataFrame) (i : Nat) (c : String) : Val :=
  cellRow df.cols (df.rows.getD i []) c

/-- The column `c` as a list of cells (a pandas `Series`), in row order. -/
def colVals (df : DataFrame) (c : String) : List Val :=
  df.rows.map (fun r => cellRow df.cols r c)

/-- Well-formedness: every row has exactly one cell per column. -/
def Wf (df : DataFrame) : Prop :=
  ∀ r ∈ df.rows, r.length = df.cols.length

instance : DecidablePred Wf := fun df =>
  inferInstanceAs (Decidable (∀ r ∈ df.rows, r.length = df.cols.length))

/-- `df[col].fillna(v, inplace=True)` on one row: replace the cell at
position `j` if it is missing. -/
def fillRow (j : Nat) (v : Val) (r : List Val) : List Val :=
  if r.getD j .na = .na then r.set j v else r

/-- `df[col].fillna(v, inplace=True)`: fill the missing cells of column `c`
with `v`; a no-op if the column is absent. -/
def fillnaCol (df : DataFrame) (c : String) (v : Val) : DataFrame :=
  match df.cols.findIdx? (· == c) with
  | some j => ⟨df.cols, df.rows.map (fillRow j v)⟩
  | none => df

/-- `df[c] = xs`: overwrite column `c` with the series `xs` if it exists,
otherwise append it as a new last column (pandas column assignment). -/
def setCol (df : DataFrame) (c : String) (xs : List Val) : DataFrame :=
  match df.cols.findIdx? (· == c) with
  | some j => ⟨df.cols, List.zipWith (fun r v => r.set j v) df.rows xs⟩
  | none => ⟨df.cols ++ [c], List.zipWith (fun r v => r ++ [v]) df.rows xs⟩

end DataFrame

/-- pandas median of a sorted nonempty list: middle element for odd length,
mean of the two middle elements for even length. -/
def medianOfSorted (l : List ℚ) : ℚ :=
  if l.length % 2 = 1 then l.getD (l.length / 2) 0
  else (l.getD (l.length / 2 - 1) 0 + l.getD (l.length / 2) 0) / 2

/-- `df[c].median()`: the median of the column's numeric (non-missing)
values, `na` when the column has no numeric value (pandas returns `NaN`). -/
def DataFrame.medianCol (df : DataFrame) (c : String) : Val :=
  let qs := (df.colVals c).filterMap Val.toNum
  if qs.isEmpty then .na
  else .num (medianOfSorted (List.insertionSort (· ≤ ·) qs))

/-! ### `pipelines/data_engineering/nodes.py` -/

/-- The `(country, date)` key of a row, as used by
`drop_duplicates(subset=["country", "date"])` and
`sort_values(["country", "date"])`. -/
def keyOf (cols : List String) (r : List Val) : Val × Val :=
  (cellRow cols r "country", cellRow cols r "date")

/-- `drop_duplicates(subset=["country", "date"], keep="last")`: a row is kept
iff no later row has the same `(country, date)` key. -/
def dedupKeepLast (cols : List String) : List (List Val) → List (List Val)
  | [] => []
  | r :: rs =>
      if rs.any (fun r2 => keyOf cols r2 == keyOf cols r) then dedupKeepLast cols rs
      else r :: dedupKeepLast cols rs

/-- `sort_values(["country", "date"]).reset_index(drop=True)`: sort the rows
ascending by the `(country, date)` key (missing keys last). -/
def sortByCountryDate (df : DataFrame) : DataFrame :=
  ⟨df.cols,
   List.insertionSort (fun r1 r2 => keyLeb (keyOf df.cols r1) (keyOf df.cols r2) = true) df.rows⟩

/-- Common body of `load_and_validate_covid` / `load_and_validate_vaccination`:
raise (`ValueError`, the spec's `SchemaError`) if the table is empty or a
required column is missing, otherwise deduplicate on `(country, date)`
keeping the last occurrence and sort by `(country, date)`. -/
def validateTable (required : List String) (df : DataFrame) : Except String DataFrame :=
  if df.rows.isEmpty then .error "empty dataset"
  else if required.all (fun c => df.cols.contains c) then
    .ok (sortByCountryDate ⟨df.cols, dedupKeepLast df.cols df.rows⟩)
  else .error "missing required columns"

/-- `load_and_validate_covid` (data_engineering/nodes.py, lines 20-63). -/
def load_and_validate_covid : DataFrame → Except String DataFrame :=
  validateTable ["country", "date", "total_cases"]

/-- `load_and_validate_vaccination` (data_engineering/nodes.py, lines 66-104). -/
def load_and_validate_vaccination : DataFrame → Except String DataFrame :=
  validateTable ["country", "date", "total_vaccinations"]

/-! ### `pipelines/data_cleaning/nodes.py` -/

/-- The `covid_strategies` dict of `impute_missing_values`: count-like columns
filled with the value 0. -/
def covid_strategies : List (String × Val) :=
  [("total_cases", .num 0), ("new_cases", .num 0), ("total_deaths", .num 0),
   ("new_deaths", .num 0), ("total_cases_per_million", .num 0),
   ("total_deaths_per_million", .num 0)]

/-- The `socio_cols` list of `impute_missing_values`: socioeconomic columns
filled with the column median. -/
def socio_cols : List String :=
  ["population_density", "median_age", "gdp_per_capita",
   "hospital_beds_per_thousand", "life_expectancy", "human_development_index"]

/-- The first loop of `impute_missing_values`: fill each listed column (when
present) with its fixed value. -/
def fillValCols (strats : List (String × Val)) (df : DataFrame) : DataFrame :=
  strats.foldl (fun d p => d.fillnaCol p.1 p.2) df

/-- The second loop of `impute_missing_values`: fill each listed column (when
present) with the median of that column as it stands at that step. -/
def fillMedianCols (cs : List String) (df : DataFrame) : DataFrame :=
  cs.foldl (fun d c => d.fillnaCol c (d.medianCol c)) df

/-- `impute_missing_values` (data_cleaning/nodes.py, lines 57-107): zero-fill
the count-like covid columns, median-fill the socioeconomic covid columns,
and zero-fill every vaccination column except `country` and `date`. -/
def impute_missing_values (covid_df vacc_df : DataFrame) : DataFrame × DataFrame :=
  let covid1 := fillValCols covid_strategies covid_df
  let covid2 := fillMedianCols socio_cols covid1
  let vacc_fill_cols := vacc_df.cols.filter (fun c => c != "country" && c != "date")
  let vacc1 := fillValCols (vacc_fill_cols.map (fun c => (c, Val.num 0))) vacc_df
  (covid2, vacc1)

/-- One step of `groupby("country")[col].diff()`: the running association list
`seen` holds, for each country key already passed, the most recent value of
the column in that country's group; a missing key yields a missing result and
joins no group (pandas `groupby` drops `NaN` keys). -/
def groupDiff : List Val → List Val → List (Val × Val) → List Val
  | k :: ks, v :: vs, seen =>
      if k = .na then .na :: groupDiff ks vs seen
      else
        (match (seen.find? (fun p => p.1 == k)).map Prod.snd with
         | none => Val.na
         | some prev => Val.vsub v prev) :: groupDiff ks vs ((k, v) :: seen)
  | _, _, _ => []

/-- The `death_rate` series of `create_features`:
`(total_deaths / total_cases * 100).replace([inf, -inf], 0).fillna(0)`. -/
def deathRateSeries (df : DataFrame) : List Val :=
  (List.zipWith Val.vdiv (df.colVals "total_deaths") (df.colVals "total_cases")).map
    (fun v => Val.fillnaV (.num 0) (Val.replInf0 (Val.vmul v (.num 100))))

/-- The `healthcare_capacity_index` series of `create_features`:
`(hospital_beds_per_thousand * gdp_per_capita / 10000).fillna(0)`. -/
def healthSeries (df : DataFrame) : List Val :=
  (List.zipWith Val.vmul (df.colVals "hospital_beds_per_thousand")
      (df.colVals "gdp_per_capita")).map
    (fun v => Val.fillnaV (.num 0) (Val.vdiv v (.num 10000)))

/-- The covid half of `create_features`: `death_rate` is assigned
unconditionally, `healthcare_capacity_index` only when both inputs exist. -/
def covidFeatures (df : DataFrame) : DataFrame :=
  let cf1 := df.setCol "death_rate" (deathRateSeries df)
  if cf1.cols.contains "hospital_beds_per_thousand" &&
      cf1.cols.contains "gdp_per_capita" then
    cf1.setCol "healthcare_capacity_index" (healthSeries cf1)
  else cf1

/-- The `vaccination_speed` series of `create_features`:
`groupby("country")["people_vaccinated_per_hundred"].diff().fillna(0)`. -/
def speedSeries (df : DataFrame) : List Val :=
  (groupDiff (df.colVals "country") (df.colVals "people_vaccinated_per_hundred") []).map
    (Val.fillnaV (.num 0))

/-- The `vaccination_efficiency` series of `create_features`:
`(people_fully_vaccinated / people_vaccinated).replace([inf, -inf], 0)
.fillna(0) * 100`, read from the table after `vaccination_speed` was added,
as in the code. -/
def effSeries (df : DataFrame) : List Val :=
  (List.zipWith Val.vdiv (df.colVals "people_fully_vaccinated")
      (df.colVals "people_vaccinated")).map
    (fun v => Val.vmul (Val.fillnaV (.num 0) (Val.replInf0 v)) (.num 100))

/-- `create_features` (data_cleaning/nodes.py, lines 110-155).  Column
accesses on absent columns and `groupby` on an absent key raise `KeyError`
in pandas, modelled as `none`; only the `healthcare_capacity_index` inputs
are presence-checked by the code. -/
def create_features (covid_df vacc_df : DataFrame) : Option (DataFrame × DataFrame) :=
  if covid_df.cols.contains "total_deaths" && covid_df.cols.contains "total_cases" then
    let cf2 := covidFeatures covid_df
    if vacc_df.cols.contains "country" &&
        vacc_df.cols.contains "people_vaccinated_per_hundred" then
      let vf1 := vacc_df.setCol "vaccination_speed" (speedSeries vacc_df)
      if vf1.cols.contains "people_fully_vaccinated" &&
          vf1.cols.contains "people_vaccinated" then
        some (cf2, vf1.setCol "vaccination_efficiency" (effSeries vf1))
      else none
    else none
  else none

/-- `sort_values("date")`: sort the rows ascending by the `date` column. -/
def sortByDate (df : DataFrame) : DataFrame :=
  ⟨df.cols,
   List.insertionSort
     (fun r1 r2 => (cellRow df.cols r1 "date").leb (cellRow df.cols r2 "date") = true) df.rows⟩

/-- The distinct non-missing country keys of a frame, ascending (pandas
`groupby("country")` group order: keys sorted, `NaN` keys dropped). -/
def distinctCountries (df : DataFrame) : List Val :=
  List.insertionSort (fun a b => a.leb b = true)
    (((df.colVals "country").filter (fun v => v ≠ .na)).dedup)

/-- The last non-missing entry of a series (`GroupBy.last` semantics for one
column of one group), `na` when every entry is missing. -/
def lastNonNa (xs : List Val) : Val :=
  xs.foldl (fun acc v => if v = .na then acc else v) .na

/-- `df.sort_values("date").groupby("country").last().reset_index()`: one row
per country, holding for each column the last non-missing value of that
country's group in date order; `country` becomes the first column. -/
def groupLastByCountry (df : DataFrame) : DataFrame :=
  let s := sortByDate df
  let restCols := df.cols.filter (fun c => c != "country")
  ⟨"country" :: restCols,
   (distinctCountries s).map (fun c =>
     let grp := s.rows.filter (fun r => cellRow df.cols r "country" == c)
     c :: restCols.map (fun col => lastNonNa (grp.map (fun r => cellRow df.cols r col))))⟩

/-- `left.merge(right, on="country", how="left", suffixes=("_covid", "_vacc"))`
for a right table whose country keys are unique (as produced by
`groupLastByCountry`): every left row survives; a matching right row
contributes its non-key cells, otherwise they are missing; colliding column
names other than `country` get the `_covid` / `_vacc` suffixes. -/
def mergeLeftCountry (l r : DataFrame) : DataFrame :=
  let lcols := l.cols.map (fun c =>
    if c != "country" && r.cols.contains c then c ++ "_covid" else c)
  let rkeep := r.cols.filter (fun c => c != "country")
  let rcols := rkeep.map (fun c => if l.cols.contains c then c ++ "_vacc" else c)
  ⟨lcols ++ rcols,
   l.rows.map (fun lr =>
     match r.rows.find? (fun rr =>
         cellRow r.cols rr "country" == cellRow l.cols lr "country") with
     | some rr => lr ++ rkeep.map (fun c => cellRow r.cols rr c)
     | none => lr ++ rcols.map (fun _ => Val.na))⟩

/-- `integrate_datasets` (data_cleaning/nodes.py, lines 158-173): reduce each
table to one row per country with `sort_values("date").groupby("country")
.last().reset_index()` and left-merge on `country`.  `sort_values` /
`groupby` on an absent column raise `KeyError`, modelled as `none`. -/
def integrate_datasets (covid_df vacc_df : DataFrame) : Option DataFrame :=
  if covid_df.cols.contains "date" && covid_df.cols.contains "country" &&
     vacc_df.cols.contains "date" && vacc_df.cols.contains "country" then
    some (mergeLeftCountry (groupLastByCountry covid_df) (groupLastByCountry vacc_df))
  else none

/-- Modelled from the spec's words for claim C1 ("keep only the
chronologically last row of each country"): like `groupLastByCountry` but
keeping the whole last row of each country's date-sorted group, rather than
the per-column last non-missing value.  Used only to compare the code's
behaviour with the claim's description. -/
def groupLastRowByCountry (df : DataFrame) : DataFrame :=
  let s := sortByDate df
  let restCols := df.cols.filter (fun c => c != "country")
  ⟨"country" :: restCols,
   (distinctCountries s).map (fun c =>
     let grp := s.rows.filter (fun r => cellRow df.cols r "country" == c)
     match grp.getLast? with
     | some lastR => c :: restCols.map (fun col => cellRow df.cols lastR col)
     | none => c :: restCols.map (fun _ => Val.na))⟩

/-- Modelled from the spec's words for claim C1: `integrate_datasets` as the
claim describes it, reducing each table to the literal last row per country
before the left merge. -/
def integrateSpecLastRow (covid_df vacc_df : DataFrame) : Option DataFrame :=
  if covid_df.cols.contains "date" && covid_df.cols.contains "country" &&
     vacc_df.cols.contains "date" && vacc_df.cols.contains "country" then
    some (mergeLeftCountry (groupLastRowByCountry covid_df) (groupLastRowByCountry vacc_df))
  else none

/-- The `regression_cols` allow-list of `create_ml_datasets`. -/
def regression_cols : List String :=
  ["country", "gdp_per_capita", "hospital_beds_per_thousand", "population_density",
   "median_age", "healthcare_capacity_index", "people_fully_vaccinated_per_hundred",
   "vaccination_speed"]

/-- The `classification_cols` allow-list of `create_ml_datasets`. -/
def classification_cols : List String :=
  ["country", "total_deaths_per_million", "gdp_per_capita",
   "hospital_beds_per_thousand", "human_development_index", "death_rate",
   "healthcare_capacity_index"]

/-- `df[[c for c in cs if c in df.columns]]`: keep the allow-listed columns
that are present, in allow-list order. -/
def DataFrame.selectCols (df : DataFrame) (cs : List String) : DataFrame :=
  let kept := cs.filter (fun c => df.cols.contains c)
  ⟨kept, df.rows.map (fun r => kept.map (fun c => cellRow df.cols r c))⟩

/-- `.dropna()`: drop every row containing a missing value. -/
def DataFrame.dropnaRows (df : DataFrame) : DataFrame :=
  ⟨df.cols, df.rows.filter (fun r => !(r.contains .na))⟩

/-- `create_ml_datasets` (data_cleaning/nodes.py, lines 176-213). -/
def create_ml_datasets (integrated_df : DataFrame) : DataFrame × DataFrame :=
  ((integrated_df.selectCols regression_cols).dropnaRows,
   (integrated_df.selectCols classification_cols).dropnaRows)

/-- Numeric-or-missing cell test (a float column of a real pandas frame can
only hold finite numbers and `NaN` unless an infinity was injected). -/
def Val.isNumOrNa : Val → Bool
  | .num _ => true
  | .na => true
  | _ => false

/-- Specification-side view of the grouped difference: the index of the
previous row in the same group — the greatest `j < i` whose key equals key
`i` — which is the row whose value `groupby(...).diff()` subtracts at `i`. -/
def prevSame (ks : List Val) (i : Nat) : Option Nat :=
  ((List.range i).filter (fun j => ks.getD j .na == ks.getD i .na)).getLast?

/-! ### Example tables used by the witness and counterexample theorems -/

/-- Example covid table for the imputation witnesses: country, date,
total_cases (count-like), gdp_per_capita (median-fill) with one missing
gdp value. -/
def covidImpW : DataFrame :=
  ⟨["country", "date", "total_cases", "gdp_per_capita"],
   [[.str "A", .num 1, .num 10, .num 10],
    [.str "A", .num 2, .na, .na],
    [.str "B", .num 1, .num 5, .num 20]]⟩

/-- Example vaccination table for the imputation witnesses. -/
def vaccImpW : DataFrame :=
  ⟨["country", "date", "total_vaccinations"],
   [[.str "A", .num 1, .num 100],
    [.str "B", .num 1, .na]]⟩

/-- Example fully-populated tables for the idempotence witness. -/
def covidFullW : DataFrame :=
  ⟨["country", "date", "total_cases", "gdp_per_capita"],
   [[.str "A", .num 1, .num 10, .num 10],
    [.str "B", .num 1, .num 5, .num 20]]⟩

/-- Example fully-populated vaccination table for the idempotence witness. -/
def vaccFullW : DataFrame :=
  ⟨["country", "date", "total_vaccinations"], [[.str "A", .num 1, .num 100]]⟩

/-- Example malformed table (no `total_cases` column) for the C5 witness. -/
def dfNoCasesW : DataFrame :=
  ⟨["country", "date"], [[.str "A", .num 1]]⟩

/-- Example covid table for the C4 witness: the `(X, 1)` key occurs twice
(spec §8 example scenario). -/
def dfDupW : DataFrame :=
  ⟨["country", "date", "total_cases"],
   [[.str "X", .num 1, .num 10],
    [.str "X", .num 1, .num 12],
    [.str "X", .num 2, .num 20]]⟩

/-- Example integrated snapshot for the C9 witness: country B has a missing
predictor, country A is complete. -/
def dfSnapW : DataFrame :=
  ⟨["country", "gdp_per_capita", "death_rate"],
   [[.str "A", .num 1, .num 2],
    [.str "B", .na, .num 3]]⟩

/-- Example covid table lacking the optional `total_deaths` column (claim
C2): `create_features` accesses it unconditionally. -/
def covidNoDeathsW : DataFrame :=
  ⟨["country", "date", "total_cases"], [[.str "A", .num 1, .num 3]]⟩

/-- Example covid table for the feature-builder witnesses, including a
division-by-zero row (`total_cases = 0`). -/
def covidFeatW : DataFrame :=
  ⟨["country", "date", "total_cases", "total_deaths", "hospital_beds_per_thousand",
    "gdp_per_capita"],
   [[.str "A", .num 1, .num 10, .num 1, .num 2, .num 100],
    [.str "A", .num 2, .num 0, .num 7, .na, .num 50]]⟩

/-- Example vaccination table for the feature-builder witnesses: country "Y"
with `people_vaccinated_per_hundred` = [5, 8, 8, 15] (spec §8 example), and a
`people_vaccinated = 0` row for the efficiency edge case. -/
def vaccFeatW : DataFrame :=
  ⟨["country", "date", "total_vaccinations", "people_vaccinated",
    "people_fully_vaccinated", "people_vaccinated_per_hundred"],
   [[.str "Y", .num 1, .num 100, .num 0, .num 0, .num 5],
    [.str "Y", .num 2, .num 120, .num 60, .num 20, .num 8],
    [.str "Y", .num 3, .num 130, .num 70, .num 25, .num 8],
    [.str "Y", .num 4, .num 150, .num 80, .num 30, .num 15]]⟩

/-- Example covid table for the Integrator claims: country "A" has its last
(date-sorted) row missing `x`, while an earlier row has `x = 5`. -/
def covIntW : DataFrame :=
  ⟨["country", "date", "x"],
   [[.str "A", .num 1, .num 5],
    [.str "A", .num 2, .na]]⟩

/-- Example vaccination table for the Integrator claims. -/
def vacIntW : DataFrame :=
  ⟨["country", "date", "total_vaccinations"], [[.str "A", .num 1, .num 7]]⟩

/-- A second covid table for the Integrator witness: two countries, one of
which ("B") has no vaccination match. -/
def covInt2W : DataFrame :=
  ⟨["country", "date", "total_cases"],
   [[.str "B", .num 1, .num 4],
    [.str "A", .num 1, .num 2],
    [.str "A", .num 2, .num 3]]⟩

/-! ### Basic lemmas about the table model -/

theorem findIdx_col_eq {cols : List String} {c : String} {j : Nat}
    (h : cols.findIdx? (· == c) = some j) : ∃ hj : j < cols.length, cols[j] = c := by
  rw [List.findIdx?_eq_some_iff_getElem] at h
  obtain ⟨hj, h1, _⟩ := h
  exact ⟨hj, by simpa using h1⟩

theorem findIdx_col_ne {cols : List String} {c c' : String} {j j' : Nat}
    (hne : c' ≠ c) (h : cols.findIdx? (· == c) = some j)
    (h' : cols.findIdx? (· == c') = some j') : j ≠ j' := by
  intro hEq
  obtain ⟨hj, hc⟩ := findIdx_col_eq h
  obtain ⟨hj', hc'⟩ := findIdx_col_eq h'
  subst hEq
  exact hne (hc'.symm.trans hc)

theorem findIdx_col_of_mem {cols : List String} {c : String} (h : c ∈ cols) :
    ∃ j, cols.findIdx? (· == c) = some j := by
  cases hfi : cols.findIdx? (· == c) with
  | some j => exact ⟨j, rfl⟩
  | none =>
      rw [List.findIdx?_eq_none_iff] at hfi
      have := hfi c h
      simp at this

theorem cellRow_of_findIdx {cols : List String} {c : String} {j : Nat}
    (h : cols.findIdx? (· == c) = some j) (r : List Val) :
    cellRow cols r c = r.getD j .na := by
  unfold cellRow
  rw [h]

theorem cellRow_of_findIdx_none {cols : List String} {c : String}
    (h : cols.findIdx? (· == c) = none) (r : List Val) :
    cellRow cols r c = .na := by
  unfold cellRow
  rw [h]

theorem getD_map_of_lt {α β : Type} (f : α → β) {l : List α} {i : Nat}
    (hi : i < l.length) (d : α) (d' : β) : (l.map f).getD i d' = f (l.getD i d) := by
  simp [List.getD_eq_getElem?_getD, List.getElem?_map, List.getElem?_eq_getElem hi]

theorem getD_of_length_le {α : Type} {l : List α} {i : Nat} (hi : l.length ≤ i)
    (d : α) : l.getD i d = d := by
  rw [List.getD_eq_getElem?_getD, List.getElem?_eq_none hi]
  rfl

namespace DataFrame

theorem cols_fillnaCol (df : DataFrame) (c : String) (v : Val) :
    (df.fillnaCol c v).cols = df.cols := by
  unfold fillnaCol
  cases df.cols.findIdx? (· == c) <;> rfl

theorem length_rows_fillnaCol (df : DataFrame) (c : String) (v : Val) :
    (df.fillnaCol c v).rows.length = df.rows.length := by
  unfold fillnaCol
  cases df.cols.findIdx? (· == c) <;> simp

theorem length_fillRow (j : Nat) (v : Val) (r : List Val) :
    (fillRow j v r).length = r.length := by
  unfold fillRow
  split <;> simp

theorem Wf_fillnaCol {df : DataFrame} (hw : df.Wf) (c : String) (v : Val) :
    (df.fillnaCol c v).Wf := by
  unfold fillnaCol
  cases hfi : df.cols.findIdx? (· == c) with
  | none => exact hw
  | some j =>
      intro r hr
      simp only [List.mem_map] at hr
      obtain ⟨r0, hr0, rfl⟩ := hr
      simpa [length_fillRow] using hw r0 hr0

theorem getD_fillRow_ne {j j' : Nat} (h : j ≠ j') (v : Val) (r : List Val) :
    (fillRow j v r).getD j' .na = r.getD j' .na := by
  unfold fillRow
  split
  · simp [List.getD_eq_getElem?_getD, List.getElem?_set_ne h]
  · rfl

theorem getD_fillRow_self {j : Nat} {v : Val} {r : List Val} (hj : j < r.length) :
    (fillRow j v r).getD j .na = if r.getD j .na = .na then v else r.getD j .na := by
  unfold fillRow
  split
  · simp [List.getD_eq_getElem?_getD, List.getElem?_set_self hj]
  · simp [*]

theorem rows_fillnaCol_of_findIdx {df : DataFrame} {c : String} {j : Nat}
    (h : df.cols.findIdx? (· == c) = some j) (v : Val) :
    (df.fillnaCol c v).rows = df.rows.map (fillRow j v) := by
  unfold fillnaCol
  rw [h]

theorem cell_fillnaCol_ne {c c' : String} (hne : c' ≠ c) (df : DataFrame)
    (v : Val) (i : Nat) : (df.fillnaCol c' v).cell i c = df.cell i c := by
  cases hfi : df.cols.findIdx? (· == c') with
  | none =>
      unfold fillnaCol
      rw [hfi]
  | some j' =>
      unfold cell
      rw [rows_fillnaCol_of_findIdx hfi, cols_fillnaCol]
      cases hc : df.cols.findIdx? (· == c) with
      | none => rw [cellRow_of_findIdx_none hc, cellRow_of_findIdx_none hc]
      | some j =>
          rw [cellRow_of_findIdx hc, cellRow_of_findIdx hc]
          by_cases hi : i < df.rows.length
          · rw [getD_map_of_lt _ hi []]
            exact getD_fillRow_ne (Ne.symm (findIdx_col_ne hne hc hfi)) v _
          · have h1 : (df.rows.map (fillRow j' v)).getD i [] = [] :=
              getD_of_length_le (by simpa using Nat.le_of_not_lt hi) []
            have h2 : df.rows.getD i [] = [] :=
              getD_of_length_le (Nat.le_of_not_lt hi) []
            rw [h1, h2]

theorem cell_fillnaCol_nonNa {df : DataFrame} {i : Nat} {c : String}
    (h : df.cell i c ≠ .na) (c' : String) (v : Val) :
    (df.fillnaCol c' v).cell i c = df.cell i c := by
  by_cases hcc : c' = c
  · subst hcc
    cases hfi : df.cols.findIdx? (· == c') with
    | none =>
        unfold fillnaCol
        rw [hfi]
    | some j =>
        unfold cell at h ⊢
        rw [rows_fillnaCol_of_findIdx hfi, cols_fillnaCol]
        rw [cellRow_of_findIdx hfi] at h ⊢
        rw [cellRow_of_findIdx hfi]
        by_cases hi : i < df.rows.length
        · rw [getD_map_of_lt _ hi []]
          unfold fillRow
          split
          · exact absurd (by assumption) h
          · rfl
        · rw [getD_of_length_le (Nat.le_of_not_lt hi)] at h
          simp at h
  · exact cell_fillnaCol_ne hcc df v i

theorem cell_fillnaCol_self {df : DataFrame} {c : String} (hw : df.Wf)
    (hc : c ∈ df.cols) {i : Nat} (hi : i < df.rows.length) (v : Val) :
    (df.fillnaCol c v).cell i c = if df.cell i c = .na then v else df.cell i c := by
  obtain ⟨j, hfi⟩ := findIdx_col_of_mem hc
  obtain ⟨hjlen, -⟩ := findIdx_col_eq hfi
  unfold cell
  rw [rows_fillnaCol_of_findIdx hfi, cols_fillnaCol]
  rw [cellRow_of_findIdx hfi, cellRow_of_findIdx hfi]
  rw [getD_map_of_lt _ hi []]
  have hmem : df.rows.getD i [] ∈ df.rows := by
    rw [List.getD_eq_getElem?_getD, List.getElem?_eq_getElem hi]
    exact List.getElem_mem hi
  exact getD_fillRow_self (by rw [hw _ hmem]; omega)

theorem colVals_fillnaCol_ne {c c' : String} (hne : c' ≠ c) (df : DataFrame)
    (v : Val) : (df.fillnaCol c' v).colVals c = df.colVals c := by
  cases hfi : df.cols.findIdx? (· == c') with
  | none =>
      unfold fillnaCol
      rw [hfi]
  | some j' =>
      unfold colVals
      rw [rows_fillnaCol_of_findIdx hfi, cols_fillnaCol, List.map_map]
      apply List.map_congr_left
      intro r _
      simp only [Function.comp]
      cases hc : df.cols.findIdx? (· == c) with
      | none => rw [cellRow_of_findIdx_none hc, cellRow_of_findIdx_none hc]
      | some j =>
          rw [cellRow_of_findIdx hc, cellRow_of_findIdx hc]
          exact getD_fillRow_ne (Ne.symm (findIdx_col_ne hne hc hfi)) v r

theorem medianCol_fillnaCol_ne {c c' : String} (hne : c' ≠ c) (df : DataFrame)
    (v : Val) : (df.fillnaCol c' v).medianCol c = df.medianCol c := by
  unfold medianCol
  rw [colVals_fillnaCol_ne hne]

end DataFrame

/-! ### Lemmas about the imputation folds -/

theorem cols_fillValCols (strats : List (String × Val)) (df : DataFrame) :
    (fillValCols strats df).cols = df.cols := by
  induction strats generalizing df with
  | nil => rfl
  | cons p ps ih =>
      rw [fillValCols, List.foldl_cons, ← fillValCols, ih, DataFrame.cols_fillnaCol]

theorem length_rows_fillValCols (strats : List (String × Val)) (df : DataFrame) :
    (fillValCols strats df).rows.length = df.rows.length := by
  induction strats generalizing df with
  | nil => rfl
  | cons p ps ih =>
      rw [fillValCols, List.foldl_cons, ← fillValCols, ih, DataFrame.length_rows_fillnaCol]

theorem Wf_fillValCols (strats : List (String × Val)) {df : DataFrame} (hw : df.Wf) :
    (fillValCols strats df).Wf := by
  induction strats generalizing df with
  | nil => exact hw
  | cons p ps ih =>
      rw [fillValCols, List.foldl_cons, ← fillValCols]
      exact ih (DataFrame.Wf_fillnaCol hw p.1 p.2)

theorem cell_fillValCols_notmem {strats : List (String × Val)} {c : String}
    (h : c ∉ strats.map Prod.fst) (df : DataFrame) (i : Nat) :
    (fillValCols strats df).cell i c = df.cell i c := by
  induction strats generalizing df with
  | nil => rfl
  | cons p ps ih =>
      simp only [List.map_cons, List.mem_cons, not_or] at h
      rw [fillValCols, List.foldl_cons, ← fillValCols, ih h.2,
        DataFrame.cell_fillnaCol_ne (Ne.symm h.1)]

theorem colVals_fillValCols_notmem {strats : List (String × Val)} {c : String}
    (h : c ∉ strats.map Prod.fst) (df : DataFrame) :
    (fillValCols strats df).colVals c = df.colVals c := by
  induction strats generalizing df with
  | nil => rfl
  | cons p ps ih =>
      simp only [List.map_cons, List.mem_cons, not_or] at h
      rw [fillValCols, List.foldl_cons, ← fillValCols, ih h.2,
        DataFrame.colVals_fillnaCol_ne (Ne.symm h.1)]

theorem cell_fillValCols_nonNa {df : DataFrame} {i : Nat} {c : String}
    (h : df.cell i c ≠ .na) (strats : List (String × Val)) :
    (fillValCols strats df).cell i c = df.cell i c := by
  induction strats generalizing df with
  | nil => rfl
  | cons p ps ih =>
      rw [fillValCols, List.foldl_cons, ← fillValCols]
      rw [ih (by rw [DataFrame.cell_fillnaCol_nonNa h]; exact h),
        DataFrame.cell_fillnaCol_nonNa h]

theorem cols_fillMedianCols (cs : List String) (df : DataFrame) :
    (fillMedianCols cs df).cols = df.cols := by
  induction cs generalizing df with
  | nil => rfl
  | cons c0 cs0 ih =>
      rw [fillMedianCols, List.foldl_cons, ← fillMedianCols, ih, DataFrame.cols_fillnaCol]

theorem length_rows_fillMedianCols (cs : List String) (df : DataFrame) :
    (fillMedianCols cs df).rows.length = df.rows.length := by
  induction cs generalizing df with
  | nil => rfl
  | cons c0 cs0 ih =>
      rw [fillMedianCols, List.foldl_cons, ← fillMedianCols, ih,
        DataFrame.length_rows_fillnaCol]

theorem Wf_fillMedianCols (cs : List String) {df : DataFrame} (hw : df.Wf) :
    (fillMedianCols cs df).Wf := by
  induction cs generalizing df with
  | nil => exact hw
  | cons c0 cs0 ih =>
      rw [fillMedianCols, List.foldl_cons, ← fillMedianCols]
      exact ih (DataFrame.Wf_fillnaCol hw c0 _)

theorem cell_fillMedianCols_notmem {cs : List String} {c : String}
    (h : c ∉ cs) (df : DataFrame) (i : Nat) :
    (fillMedianCols cs df).cell i c = df.cell i c := by
  induction cs generalizing df with
  | nil => rfl
  | cons c0 cs0 ih =>
      simp only [List.mem_cons, not_or] at h
      rw [fillMedianCols, List.foldl_cons, ← fillMedianCols, ih h.2,
        DataFrame.cell_fillnaCol_ne (Ne.symm h.1)]

theorem cell_fillMedianCols_nonNa {df : DataFrame} {i : Nat} {c : String}
    (h : df.cell i c ≠ .na) (cs : List String) :
    (fillMedianCols cs df).cell i c = df.cell i c := by
  induction cs generalizing df with
  | nil => rfl
  | cons c0 cs0 ih =>
      rw [fillMedianCols, List.foldl_cons, ← fillMedianCols]
      rw [ih (by rw [DataFrame.cell_fillnaCol_nonNa h]; exact h),
        DataFrame.cell_fillnaCol_nonNa h]

/-- Core of claim C7: filling a list of distinct median-fill columns replaces
precisely the missing cells of each listed present column with that column's
median as computed on the table the fold started from. -/
theorem cell_fillMedianCols_mem {cs : List String} {c : String} {df : DataFrame}
    (hnd : cs.Nodup) (hc : c ∈ cs) (hw : df.Wf) (hcc : c ∈ df.cols) {i : Nat}
    (hi : i < df.rows.length) :
    (fillMedianCols cs df).cell i c =
      if df.cell i c = .na then df.medianCol c else df.cell i c := by
  induction cs generalizing df with
  | nil => cases hc
  | cons c0 cs0 ih =>
      rw [fillMedianCols, List.foldl_cons, ← fillMedianCols]
      rcases List.mem_cons.mp hc with hc0 | hcs0
      · subst hc0
        have hnotin : c ∉ cs0 := (List.nodup_cons.mp hnd).1
        rw [cell_fillMedianCols_notmem hnotin]
        exact DataFrame.cell_fillnaCol_self hw hcc hi _
      · have hne : c0 ≠ c := by
          rintro rfl
          exact (List.nodup_cons.mp hnd).1 hcs0
        have hih := ih (List.nodup_cons.mp hnd).2 hcs0
          (DataFrame.Wf_fillnaCol hw c0 (df.medianCol c0))
          (by rw [DataFrame.cols_fillnaCol]; exact hcc)
          (by rw [DataFrame.length_rows_fillnaCol]; exact hi)
        rw [hih, DataFrame.cell_fillnaCol_ne hne, DataFrame.medianCol_fillnaCol_ne hne]

/-! ### No-op lemmas (claim C8) -/

theorem fillnaCol_of_no_na {df : DataFrame} (h : ∀ r ∈ df.rows, Val.na ∉ r)
    (c : String) (v : Val) : df.fillnaCol c v = df := by
  obtain ⟨cols, rows⟩ := df
  unfold DataFrame.fillnaCol
  cases hfi : cols.findIdx? (· == c) with
  | none => rfl
  | some j =>
      simp only [DataFrame.mk.injEq, true_and]
      have : ∀ r ∈ rows, DataFrame.fillRow j v r = r := by
        intro r hr
        unfold DataFrame.fillRow
        split
        · by_cases hj : j < r.length
          · have hmem : r.getD j .na ∈ r := by
              rw [List.getD_eq_getElem?_getD, List.getElem?_eq_getElem hj]
              exact List.getElem_mem hj
            rw [(by assumption : r.getD j .na = Val.na)] at hmem
            exact absurd hmem (h r hr)
          · exact List.set_eq_of_length_le (Nat.le_of_not_lt hj)
        · rfl
      calc rows.map (DataFrame.fillRow j v) = rows.map id := List.map_congr_left this
        _ = rows := List.map_id rows

theorem fillValCols_of_no_na {df : DataFrame} (h : ∀ r ∈ df.rows, Val.na ∉ r)
    (strats : List (String × Val)) : fillValCols strats df = df := by
  induction strats with
  | nil => rfl
  | cons p ps ih =>
      rw [fillValCols, List.foldl_cons, ← fillValCols, fillnaCol_of_no_na h, ih]

theorem fillMedianCols_of_no_na {df : DataFrame} (h : ∀ r ∈ df.rows, Val.na ∉ r)
    (cs : List String) : fillMedianCols cs df = df := by
  induction cs with
  | nil => rfl
  | cons c0 cs0 ih =>
      rw [fillMedianCols, List.foldl_cons, ← fillMedianCols, fillnaCol_of_no_na h, ih]

theorem medianCol_fillValCols_notmem {strats : List (String × Val)} {c : String}
    (h : c ∉ strats.map Prod.fst) (df : DataFrame) :
    (fillValCols strats df).medianCol c = df.medianCol c := by
  unfold DataFrame.medianCol
  rw [colVals_fillValCols_notmem h]

theorem cell_mem_colVals {df : DataFrame} {i : Nat} (hi : i < df.rows.length)
    (c : String) : df.cell i c ∈ df.colVals c := by
  unfold DataFrame.cell DataFrame.colVals
  have : (df.rows.map (fun r => cellRow df.cols r c)).getD i .na =
      cellRow df.cols (df.rows.getD i []) c := getD_map_of_lt _ hi [] _
  rw [← this, List.getD_eq_getElem?_getD, List.getElem?_eq_getElem (by simpa using hi)]
  exact List.getElem_mem _

theorem impute_missing_values_def (covid_df vacc_df : DataFrame) :
    impute_missing_values covid_df vacc_df =
      (fillMedianCols socio_cols (fillValCols covid_strategies covid_df),
       fillValCols ((vacc_df.cols.filter
         (fun c => c != "country" && c != "date")).map (fun c => (c, Val.num 0))) vacc_df) :=
  rfl

/-- Claim C7: for every median-fill (socioeconomic) column `c` present in the
covid table, `impute_missing_values` replaces each missing cell of `c` with
the median of `c` computed over the non-missing values of the original input
table (so the zero-fill of the count-like columns cannot affect it), leaves
non-missing cells alone, and when the column is entirely missing the median
is `na`, so the cells stay missing. -/
theorem claim_C7_imputer_median_fill (covid_df vacc_df : DataFrame) (c : String)
    (hc : c ∈ socio_cols) (hcc : c ∈ covid_df.cols) (hw : covid_df.Wf)
    (i : Nat) (hi : i < covid_df.rows.length) :
    (impute_missing_values covid_df vacc_df).1.cell i c =
      (if covid_df.cell i c = .na then covid_df.medianCol c else covid_df.cell i c) ∧
    ((∀ v ∈ covid_df.colVals c, v = .na) →
      (impute_missing_values covid_df vacc_df).1.cell i c = .na) := by
  have hnotstrat : c ∉ covid_strategies.map Prod.fst := by
    have hall : ∀ x ∈ socio_cols, x ∉ covid_strategies.map Prod.fst := by decide
    exact hall c hc
  have hmain : (impute_missing_values covid_df vacc_df).1.cell i c =
      if covid_df.cell i c = .na then covid_df.medianCol c else covid_df.cell i c := by
    rw [impute_missing_values_def]
    rw [cell_fillMedianCols_mem (by decide) hc (Wf_fillValCols _ hw)
        (by rw [cols_fillValCols]; exact hcc)
        (by rw [length_rows_fillValCols]; exact hi)]
    rw [cell_fillValCols_notmem hnotstrat, medianCol_fillValCols_notmem hnotstrat]
  refine ⟨hmain, fun hall => ?_⟩
  rw [hmain]
  have hcell : covid_df.cell i c = .na := hall _ (cell_mem_colVals hi c)
  rw [hcell]
  simp only [if_pos rfl]
  unfold DataFrame.medianCol
  have : (covid_df.colVals c).filterMap Val.toNum = [] := by
    rw [List.filterMap_eq_nil_iff]
    intro v hv
    rw [hall v hv]
    rfl
  rw [this]
  rfl

/-- Witness for claim C7 at a concrete input: row 1 of the example table has
a missing `gdp_per_capita`, and the theorem instantiates there. -/
theorem claim_C7_witness :
    ("gdp_per_capita" ∈ socio_cols ∧ "gdp_per_capita" ∈ covidImpW.cols ∧
      covidImpW.Wf ∧ 1 < covidImpW.rows.length) ∧
    ((impute_missing_values covidImpW vaccImpW).1.cell 1 "gdp_per_capita" =
      (if covidImpW.cell 1 "gdp_per_capita" = .na then covidImpW.medianCol "gdp_per_capita"
       else covidImpW.cell 1 "gdp_per_capita") ∧
     ((∀ v ∈ covidImpW.colVals "gdp_per_capita", v = .na) →
       (impute_missing_values covidImpW vaccImpW).1.cell 1 "gdp_per_capita" = .na)) :=
  ⟨⟨by decide, by decide, by decide, by decide⟩,
   claim_C7_imputer_median_fill covidImpW vaccImpW "gdp_per_capita"
     (by decide) (by decide) (by decide) 1 (by decide)⟩

/-- Claim C8: the imputer is idempotent — on a pair of tables with no missing
values (such as the outputs of a prior run whose median-fill columns each had
a non-missing value), `impute_missing_values` returns its inputs unchanged. -/
theorem claim_C8_imputer_idempotent (covid_df vacc_df : DataFrame)
    (h1 : ∀ r ∈ covid_df.rows, Val.na ∉ r) (h2 : ∀ r ∈ vacc_df.rows, Val.na ∉ r) :
    impute_missing_values covid_df vacc_df = (covid_df, vacc_df) := by
  rw [impute_missing_values_def]
  rw [fillValCols_of_no_na h1, fillMedianCols_of_no_na h1, fillValCols_of_no_na h2]

/-- Witness for claim C8 at a concrete missing-free input pair. -/
theorem claim_C8_witness :
    ((∀ r ∈ covidFullW.rows, Val.na ∉ r) ∧ (∀ r ∈ vaccFullW.rows, Val.na ∉ r)) ∧
    impute_missing_values covidFullW vaccFullW = (covidFullW, vaccFullW) :=
  ⟨⟨by decide, by decide⟩,
   claim_C8_imputer_idempotent covidFullW vaccFullW (by decide) (by decide)⟩

/-- Claim C10: the imputer never alters a non-missing cell, and preserves the
column list and the number (hence the positional order) of rows of both
tables; only missing cells can change. -/
theorem claim_C10_imputer_frame (covid_df vacc_df : DataFrame) :
    (impute_missing_values covid_df vacc_df).1.cols = covid_df.cols ∧
    (impute_missing_values covid_df vacc_df).2.cols = vacc_df.cols ∧
    (impute_missing_values covid_df vacc_df).1.rows.length = covid_df.rows.length ∧
    (impute_missing_values covid_df vacc_df).2.rows.length = vacc_df.rows.length ∧
    (∀ i c, covid_df.cell i c ≠ .na →
      (impute_missing_values covid_df vacc_df).1.cell i c = covid_df.cell i c) ∧
    (∀ i c, vacc_df.cell i c ≠ .na →
      (impute_missing_values covid_df vacc_df).2.cell i c = vacc_df.cell i c) := by
  rw [impute_missing_values_def]
  refine ⟨by rw [cols_fillMedianCols, cols_fillValCols], by rw [cols_fillValCols],
    by rw [length_rows_fillMedianCols, length_rows_fillValCols],
    by rw [length_rows_fillValCols], fun i c h => ?_, fun i c h => ?_⟩
  · rw [cell_fillMedianCols_nonNa (by rw [cell_fillValCols_nonNa h]; exact h),
      cell_fillValCols_nonNa h]
  · exact cell_fillValCols_nonNa h _

/-- Witness for claim C10: on the example tables, the theorem instantiates at
the non-missing cell `(0, total_cases)` of the covid table and
`(0, total_vaccinations)` of the vaccination table. -/
theorem claim_C10_witness :
    (covidImpW.cell 0 "total_cases" ≠ .na ∧ vaccImpW.cell 0 "total_vaccinations" ≠ .na) ∧
    (impute_missing_values covidImpW vaccImpW).1.cols = covidImpW.cols ∧
    (impute_missing_values covidImpW vaccImpW).1.cell 0 "total_cases" =
      covidImpW.cell 0 "total_cases" ∧
    (impute_missing_values covidImpW vaccImpW).2.cell 0 "total_vaccinations" =
      vaccImpW.cell 0 "total_vaccinations" :=
  ⟨⟨by decide, by decide⟩,
   (claim_C10_imputer_frame covidImpW vaccImpW).1,
   (claim_C10_imputer_frame covidImpW vaccImpW).2.2.2.2.1 0 "total_cases" (by decide),
   (claim_C10_imputer_frame covidImpW vaccImpW).2.2.2.2.2 0 "total_vaccinations" (by decide)⟩

/-! ### Order lemmas for the sort relations -/

theorem Val.leb_total (a b : Val) : a.leb b = true ∨ b.leb a = true := by
  cases a <;> cases b <;> simp_all [Val.leb, Val.rank] <;>
    first
      | omega
      | exact le_total _ _

theorem Val.leb_trans {a b c : Val} (hab : a.leb b = true) (hbc : b.leb c = true) :
    a.leb c = true := by
  cases a <;> cases b <;> cases c <;> simp_all [Val.leb, Val.rank] <;>
    first
      | omega
      | exact le_trans hab hbc

theorem keyLeb_total (a b : Val × Val) : keyLeb a b = true ∨ keyLeb b a = true := by
  unfold keyLeb
  by_cases h1 : a.1.leb b.1 = true <;> by_cases h2 : b.1.leb a.1 = true <;>
    simp [h1, h2]
  · exact Val.leb_total a.2 b.2
  · rcases Val.leb_total a.1 b.1 with h | h
    · exact absurd h h1
    · exact absurd h h2

theorem keyLeb_trans {a b c : Val × Val} (hab : keyLeb a b = true)
    (hbc : keyLeb b c = true) : keyLeb a c = true := by
  unfold keyLeb at *
  by_cases hab1 : a.1.leb b.1 = true
  case neg => simp [hab1] at hab
  by_cases hbc1 : b.1.leb c.1 = true
  case neg => simp [hbc1] at hbc
  have hac1 : a.1.leb c.1 = true := Val.leb_trans hab1 hbc1
  simp only [hab1, hbc1, hac1, if_true]
  by_cases hca1 : c.1.leb a.1 = true
  · have hba1 : b.1.leb a.1 = true := Val.leb_trans hbc1 hca1
    have hcb1 : c.1.leb b.1 = true := Val.leb_trans hca1 hab1
    simp only [hab1, hba1, if_true] at hab
    simp only [hbc1, hcb1, if_true] at hbc
    simp only [hca1, if_true]
    exact Val.leb_trans hab hbc
  · simp [hca1]

/-! ### Deduplication lemmas (claim C4) -/

theorem getLast?_cons_of_ne_nil {α : Type} {l : List α} (h : l ≠ []) (a : α) :
    (a :: l).getLast? = l.getLast? := by
  cases l with
  | nil => exact absurd rfl h
  | cons b bs => rfl

/-- The rows of `dedupKeepLast` with a given `(country, date)` key are exactly
the last input row with that key (or nothing if the key never occurs). -/
theorem filter_dedupKeepLast (cols : List String) (rows : List (List Val))
    (k : Val × Val) :
    (dedupKeepLast cols rows).filter (fun r => keyOf cols r == k) =
      ((rows.filter (fun r => keyOf cols r == k)).getLast?).toList := by
  induction rows with
  | nil => rfl
  | cons r rs ih =>
      rw [dedupKeepLast]
      by_cases hany : rs.any (fun r2 => keyOf cols r2 == keyOf cols r) = true
      · rw [if_pos hany, ih]
        by_cases hk : (keyOf cols r == k) = true
        · have hfil : rs.filter (fun r2 => keyOf cols r2 == k) ≠ [] := by
            have hkeq : keyOf cols r = k := by simpa using hk
            rw [List.any_eq_true] at hany
            obtain ⟨r2, hr2, hr2k⟩ := hany
            have : r2 ∈ rs.filter (fun r2 => keyOf cols r2 == k) :=
              List.mem_filter.mpr ⟨hr2, by rw [← hkeq]; exact hr2k⟩
            exact List.ne_nil_of_mem this
          rw [List.filter_cons, if_pos hk, getLast?_cons_of_ne_nil hfil]
        · rw [List.filter_cons, if_neg hk]
      · rw [if_neg hany]
        by_cases hk : (keyOf cols r == k) = true
        · have hkeq : keyOf cols r = k := by simpa using hk
          have hanyf : ∀ r2 ∈ rs, (keyOf cols r2 == keyOf cols r) = false := by
            rw [Bool.not_eq_true] at hany
            exact fun r2 hr2 => by simpa using (List.any_eq_false.mp hany) r2 hr2
          have hfil : rs.filter (fun r2 => keyOf cols r2 == k) = [] := by
            rw [List.filter_eq_nil_iff]
            intro r2 hr2
            rw [← hkeq]
            simp [hanyf r2 hr2]
          have hfil2 : (dedupKeepLast cols rs).filter (fun r2 => keyOf cols r2 == k) = [] := by
            rw [ih, hfil]
            rfl
          rw [List.filter_cons, if_pos hk, hfil2, List.filter_cons, if_pos hk, hfil]
          rfl
        · rw [List.filter_cons, if_neg hk, List.filter_cons, if_neg hk, ih]

/-! ### Validator lemmas (claims C4, C5) -/

theorem validateTable_error_iff (required : List String) (df : DataFrame) :
    (∃ e, validateTable required df = .error e) ↔
      df.rows = [] ∨ ∃ c ∈ required, c ∉ df.cols := by
  unfold validateTable
  by_cases h1 : df.rows.isEmpty = true
  · simp [h1, List.isEmpty_iff.mp h1]
  · have h1' : df.rows ≠ [] := by simpa [List.isEmpty_iff] using h1
    by_cases h2 : required.all (fun c => df.cols.contains c) = true
    · rw [if_neg h1, if_pos h2]
      simp only [List.all_eq_true] at h2
      constructor
      · rintro ⟨e, he⟩
        cases he
      · rintro (hnil | ⟨c, hc, hmem⟩)
        · exact absurd hnil h1'
        · exact absurd (by simpa using h2 c hc) hmem
    · rw [if_neg h1, if_neg h2]
      constructor
      · intro
        right
        simp only [List.all_eq_true] at h2
        push_neg at h2
        obtain ⟨c, hc, hmem⟩ := h2
        exact ⟨c, hc, by simpa using hmem⟩
      · intro
        exact ⟨"missing required columns", rfl⟩

theorem validateTable_ok (required : List String) (df : DataFrame)
    (hne : df.rows ≠ []) (hreq : ∀ c ∈ required, c ∈ df.cols) :
    validateTable required df =
      .ok (sortByCountryDate ⟨df.cols, dedupKeepLast df.cols df.rows⟩) := by
  unfold validateTable
  rw [if_neg (by simpa [List.isEmpty_iff] using hne),
    if_pos (List.all_eq_true.mpr (fun c hc => by simpa using hreq c hc))]

/-- Claim C5: each Validator fails (with the spec's `SchemaError`, a
`ValueError` in the code, modelled as `Except.error`) exactly when the input
table has zero rows or one of its required columns — `country`, `date`,
`total_cases` for case/death data and `country`, `date`, `total_vaccinations`
for vaccination data — is absent; on success no error is raised.  The error
is returned directly to the caller (`Except` short-circuits: nothing after
the raise runs). -/
theorem claim_C5_validator_schema_error (df : DataFrame) :
    ((∃ e, load_and_validate_covid df = .error e) ↔
      df.rows = [] ∨ ∃ c ∈ ["country", "date", "total_cases"], c ∉ df.cols) ∧
    ((∃ e, load_and_validate_vaccination df = .error e) ↔
      df.rows = [] ∨ ∃ c ∈ ["country", "date", "total_vaccinations"], c ∉ df.cols) :=
  ⟨validateTable_error_iff _ df, validateTable_error_iff _ df⟩

/-- Witness for claim C5: the covid Validator rejects a table lacking
`total_cases`, per the iff instantiated at a concrete table. -/
theorem claim_C5_witness : ∃ e, load_and_validate_covid dfNoCasesW = .error e :=
  (claim_C5_validator_schema_error dfNoCasesW).1.mpr (by decide)

/-- Claim C4: on a non-empty input with the required columns, the covid
Validator succeeds, and its output (a) keeps, for every `(country, date)`
key occurring more than once, exactly the last input row with that key, and
(b) is sorted ascending by `(country, date)`.  The output row index is
positional in the model (`reset_index(drop=True)`), hence contiguous. -/
theorem claim_C4_validator_dedup_sort (df : DataFrame) (hne : df.rows ≠ [])
    (hreq : ∀ c ∈ ["country", "date", "total_cases"], c ∈ df.cols) :
    ∃ out, load_and_validate_covid df = .ok out ∧
      (∀ k : Val × Val,
        2 ≤ (df.rows.filter (fun r => keyOf df.cols r == k)).length →
          out.rows.filter (fun r => keyOf df.cols r == k) =
            ((df.rows.filter (fun r => keyOf df.cols r == k)).getLast?).toList) ∧
      List.Pairwise (fun r1 r2 => keyLeb (keyOf df.cols r1) (keyOf df.cols r2) = true)
        out.rows := by
  refine ⟨_, validateTable_ok _ df hne hreq, fun k hk => ?_, ?_⟩
  · have hperm : (sortByCountryDate ⟨df.cols, dedupKeepLast df.cols df.rows⟩).rows.Perm
        (dedupKeepLast df.cols df.rows) := List.perm_insertionSort _ _
    have hfperm := hperm.filter (fun r => keyOf df.cols r == k)
    rw [filter_dedupKeepLast] at hfperm
    have hne2 : df.rows.filter (fun r => keyOf df.cols r == k) ≠ [] := by
      rw [← List.length_pos]
      omega
    obtain ⟨r, hr⟩ : ∃ r, (df.rows.filter (fun r => keyOf df.cols r == k)).getLast? = some r :=
      ⟨_, List.getLast?_eq_getLast _ hne2⟩
    rw [hr] at hfperm ⊢
    exact List.perm_singleton.mp hfperm
  · haveI : IsTotal (List Val)
        (fun r1 r2 => keyLeb (keyOf df.cols r1) (keyOf df.cols r2) = true) :=
      ⟨fun a b => keyLeb_total _ _⟩
    haveI : IsTrans (List Val)
        (fun r1 r2 => keyLeb (keyOf df.cols r1) (keyOf df.cols r2) = true) :=
      ⟨fun _ _ _ h1 h2 => keyLeb_trans h1 h2⟩
    exact List.sorted_insertionSort _ _

/-- Witness for claim C4 at a concrete duplicated input. -/
theorem claim_C4_witness :
    (dfDupW.rows ≠ [] ∧ ∀ c ∈ ["country", "date", "total_cases"], c ∈ dfDupW.cols) ∧
    (∃ out, load_and_validate_covid dfDupW = .ok out ∧
      (∀ k : Val × Val,
        2 ≤ (dfDupW.rows.filter (fun r => keyOf dfDupW.cols r == k)).length →
          out.rows.filter (fun r => keyOf dfDupW.cols r == k) =
            ((dfDupW.rows.filter (fun r => keyOf dfDupW.cols r == k)).getLast?).toList) ∧
      List.Pairwise (fun r1 r2 => keyLeb (keyOf dfDupW.cols r1) (keyOf dfDupW.cols r2) = true)
        out.rows) :=
  ⟨⟨by decide, by decide⟩,
   claim_C4_validator_dedup_sort dfDupW (by decide) (by decide)⟩

/-! ### Splitter lemmas (claim C9) -/

theorem selectCols_dropna (df : DataFrame) (cs : List String) :
    (df.selectCols cs).dropnaRows.cols = cs.filter (fun c => df.cols.contains c) ∧
    (∀ r ∈ (df.selectCols cs).dropnaRows.rows, Val.na ∉ r) ∧
    (∀ row ∈ df.rows,
      Val.na ∉ (cs.filter (fun c => df.cols.contains c)).map (fun c => cellRow df.cols row c) →
      (cs.filter (fun c => df.cols.contains c)).map (fun c => cellRow df.cols row c) ∈
        (df.selectCols cs).dropnaRows.rows) := by
  refine ⟨rfl, fun r hr => ?_, fun row hrow hna => ?_⟩
  · have hr2 := (List.mem_filter.mp hr).2
    simpa using hr2
  · show _ ∈ List.filter _ (df.rows.map _)
    refine List.mem_filter.mpr ⟨List.mem_map.mpr ⟨row, hrow, rfl⟩, ?_⟩
    simpa using hna

/-- Claim C9: each Dataset Splitter output keeps exactly the allow-listed
columns present in the snapshot (in allow-list order) and then drops every
row containing a missing value, so no surviving row holds a missing value;
conversely every input row whose projection is missing-free survives. -/
theorem claim_C9_splitter_no_missing (df : DataFrame) :
    (create_ml_datasets df).1.cols = regression_cols.filter (fun c => df.cols.contains c) ∧
    (create_ml_datasets df).2.cols =
      classification_cols.filter (fun c => df.cols.contains c) ∧
    (∀ r ∈ (create_ml_datasets df).1.rows, Val.na ∉ r) ∧
    (∀ r ∈ (create_ml_datasets df).2.rows, Val.na ∉ r) ∧
    (∀ row ∈ df.rows,
      Val.na ∉ (regression_cols.filter (fun c => df.cols.contains c)).map
          (fun c => cellRow df.cols row c) →
      (regression_cols.filter (fun c => df.cols.contains c)).map
          (fun c => cellRow df.cols row c) ∈ (create_ml_datasets df).1.rows) ∧
    (∀ row ∈ df.rows,
      Val.na ∉ (classification_cols.filter (fun c => df.cols.contains c)).map
          (fun c => cellRow df.cols row c) →
      (classification_cols.filter (fun c => df.cols.contains c)).map
          (fun c => cellRow df.cols row c) ∈ (create_ml_datasets df).2.rows) :=
  ⟨(selectCols_dropna df regression_cols).1,
   (selectCols_dropna df classification_cols).1,
   (selectCols_dropna df regression_cols).2.1,
   (selectCols_dropna df classification_cols).2.1,
   (selectCols_dropna df regression_cols).2.2,
   (selectCols_dropna df classification_cols).2.2⟩

/-- Witness for claim C9 at a concrete snapshot: the missing-free projection
of row 0 survives in both outputs, and no output row holds a missing value. -/
theorem claim_C9_witness :
    ([.str "A", .num 1, .num 2] ∈ dfSnapW.rows ∧
      Val.na ∉ (regression_cols.filter (fun c => dfSnapW.cols.contains c)).map
        (fun c => cellRow dfSnapW.cols [.str "A", .num 1, .num 2] c)) ∧
    (create_ml_datasets dfSnapW).1.cols =
      regression_cols.filter (fun c => dfSnapW.cols.contains c) ∧
    (∀ r ∈ (create_ml_datasets dfSnapW).1.rows, Val.na ∉ r) ∧
    (regression_cols.filter (fun c => dfSnapW.cols.contains c)).map
        (fun c => cellRow dfSnapW.cols [.str "A", .num 1, .num 2] c) ∈
      (create_ml_datasets dfSnapW).1.rows :=
  ⟨⟨by decide, by decide⟩,
   (claim_C9_splitter_no_missing dfSnapW).1,
   (claim_C9_splitter_no_missing dfSnapW).2.2.1,
   (claim_C9_splitter_no_missing dfSnapW).2.2.2.2.1 [.str "A", .num 1, .num 2]
     (by decide) (by decide)⟩

/-! ### Column-assignment lemmas (claims C2, C3, C6) -/

theorem getD_zipWith_of_lt {α β γ : Type} (f : α → β → γ) {l1 : List α}
    {l2 : List β} {i : Nat} (h1 : i < l1.length) (h2 : i < l2.length)
    (d1 : α) (d2 : β) (d3 : γ) :
    (List.zipWith f l1 l2).getD i d3 = f (l1.getD i d1) (l2.getD i d2) := by
  simp [List.getD_eq_getElem?_getD, List.getElem?_zipWith,
    List.getElem?_eq_getElem h1, List.getElem?_eq_getElem h2]

theorem length_rows_setCol {df : DataFrame} {xs : List Val}
    (hlen : df.rows.length = xs.length) (c : String) :
    (df.setCol c xs).rows.length = df.rows.length := by
  unfold DataFrame.setCol
  cases df.cols.findIdx? (· == c) <;> simp [hlen]

theorem Wf_setCol {df : DataFrame} {xs : List Val} (hw : df.Wf)
    (hlen : df.rows.length = xs.length) (c : String) : (df.setCol c xs).Wf := by
  unfold DataFrame.setCol
  cases hfi : df.cols.findIdx? (· == c) with
  | some j =>
      intro r hr
      rw [List.mem_iff_getElem] at hr
      obtain ⟨n, hn, hr⟩ := hr
      have hn1 : n < df.rows.length := by
        rw [List.length_zipWith] at hn
        omega
      have hn2 : n < xs.length := by omega
      have : (List.zipWith (fun r v => r.set j v) df.rows xs)[n]? =
          some ((df.rows[n]).set j (xs[n])) := by
        simp [List.getElem?_zipWith, List.getElem?_eq_getElem hn1,
          List.getElem?_eq_getElem hn2]
      rw [List.getElem?_eq_getElem hn, hr] at this
      cases this
      simpa using hw _ (List.getElem_mem hn1)
  | none =>
      intro r hr
      rw [List.mem_iff_getElem] at hr
      obtain ⟨n, hn, hr⟩ := hr
      have hn1 : n < df.rows.length := by
        rw [List.length_zipWith] at hn
        omega
      have hn2 : n < xs.length := by omega
      have : (List.zipWith (fun r v => r ++ [v]) df.rows xs)[n]? =
          some ((df.rows[n]) ++ [xs[n]]) := by
        simp [List.getElem?_zipWith, List.getElem?_eq_getElem hn1,
          List.getElem?_eq_getElem hn2]
      rw [List.getElem?_eq_getElem hn, hr] at this
      cases this
      simpa using hw _ (List.getElem_mem hn1)

theorem cell_setCol_self {df : DataFrame} {xs : List Val} (hw : df.Wf)
    (hlen : df.rows.length = xs.length) {i : Nat} (hi : i < df.rows.length)
    (c : String) : (df.setCol c xs).cell i c = xs.getD i .na := by
  have hi2 : i < xs.length := by omega
  have hrowmem : df.rows.getD i [] ∈ df.rows := by
    rw [List.getD_eq_getElem?_getD, List.getElem?_eq_getElem hi]
    exact List.getElem_mem hi
  have hrowlen : (df.rows.getD i []).length = df.cols.length := hw _ hrowmem
  unfold DataFrame.cell
  unfold DataFrame.setCol
  cases hfi : df.cols.findIdx? (· == c) with
  | some j =>
      obtain ⟨hjlen, -⟩ := findIdx_col_eq hfi
      rw [cellRow_of_findIdx hfi,
        getD_zipWith_of_lt _ hi hi2 [] .na []]
      rw [List.getD_eq_getElem?_getD, List.getElem?_set_self (by omega)]
      rfl
  | none =>
      have hfi2 : (df.cols ++ [c]).findIdx? (· == c) = some df.cols.length := by
        rw [List.findIdx?_append, hfi]
        simp
      rw [cellRow_of_findIdx hfi2,
        getD_zipWith_of_lt _ hi hi2 [] .na []]
      rw [List.getD_eq_getElem?_getD, ← hrowlen, List.getElem?_concat_length]
      rfl

theorem cell_setCol_ne {df : DataFrame} {xs : List Val} {c c' : String}
    (hw : df.Wf) (hlen : df.rows.length = xs.length) (hne : c' ≠ c) (i : Nat) :
    (df.setCol c' xs).cell i c = df.cell i c := by
  by_cases hi : i < df.rows.length
  case neg =>
    have h1 : (df.setCol c' xs).rows.getD i [] = [] := by
      refine getD_of_length_le ?_ []
      rw [length_rows_setCol hlen]
      omega
    have h2 : df.rows.getD i [] = [] := getD_of_length_le (by omega) []
    unfold DataFrame.cell
    rw [h1, h2]
    unfold cellRow
    cases (df.setCol c' xs).cols.findIdx? (· == c) <;>
      cases df.cols.findIdx? (· == c) <;> simp
  case pos =>
    have hi2 : i < xs.length := by omega
    have hrowmem : df.rows.getD i [] ∈ df.rows := by
      rw [List.getD_eq_getElem?_getD, List.getElem?_eq_getElem hi]
      exact List.getElem_mem hi
    have hrowlen : (df.rows.getD i []).length = df.cols.length := hw _ hrowmem
    unfold DataFrame.cell
    unfold DataFrame.setCol
    cases hfi : df.cols.findIdx? (· == c') with
    | some j' =>
        simp only
        cases hc : df.cols.findIdx? (· == c) with
        | none => rw [cellRow_of_findIdx_none hc, cellRow_of_findIdx_none hc]
        | some j =>
            rw [cellRow_of_findIdx hc, cellRow_of_findIdx hc,
              getD_zipWith_of_lt _ hi hi2 [] .na []]
            have hjj : j ≠ j' := findIdx_col_ne hne hc hfi
            rw [List.getD_eq_getElem?_getD, List.getElem?_set_ne (Ne.symm hjj),
              ← List.getD_eq_getElem?_getD]
    | none =>
        simp only
        cases hc : df.cols.findIdx? (· == c) with
        | none =>
            have hfi2 : (df.cols ++ [c']).findIdx? (· == c) = none := by
              rw [List.findIdx?_append, hc]
              simp [hne]
            rw [cellRow_of_findIdx_none hfi2, cellRow_of_findIdx_none hc]
        | some j =>
            obtain ⟨hjlen, -⟩ := findIdx_col_eq hc
            have hfi2 : (df.cols ++ [c']).findIdx? (· == c) = some j := by
              rw [List.findIdx?_append, hc]
              rfl
            rw [cellRow_of_findIdx hfi2, cellRow_of_findIdx hc,
              getD_zipWith_of_lt _ hi hi2 [] .na []]
            rw [List.getD_eq_getElem?_getD, List.getElem?_append_left (by omega),
              ← List.getD_eq_getElem?_getD]

theorem colVals_setCol_ne {df : DataFrame} {xs : List Val} {c c' : String}
    (hw : df.Wf) (hlen : df.rows.length = xs.length) (hne : c' ≠ c) :
    (df.setCol c' xs).colVals c = df.colVals c := by
  have hlen2 : (df.setCol c' xs).rows.length = df.rows.length := length_rows_setCol hlen c'
  apply List.ext_getElem?
  intro n
  unfold DataFrame.colVals
  rw [List.getElem?_map, List.getElem?_map]
  by_cases hn : n < df.rows.length
  · rw [List.getElem?_eq_getElem (by omega), List.getElem?_eq_getElem hn]
    simp only [Option.map_some']
    have h1 : (df.setCol c' xs).rows[n] = (df.setCol c' xs).rows.getD n [] := by
      rw [List.getD_eq_getElem?_getD, List.getElem?_eq_getElem (by omega)]
      rfl
    have h2 : df.rows[n] = df.rows.getD n [] := by
      rw [List.getD_eq_getElem?_getD, List.getElem?_eq_getElem hn]
      rfl
    rw [h1, h2]
    have := cell_setCol_ne hw hlen hne (c := c) n
    unfold DataFrame.cell at this
    rw [this]
  · rw [List.getElem?_eq_none (by omega), List.getElem?_eq_none (by omega)]
    rfl

/-! ### Arithmetic-chain lemmas (claim C3) -/

theorem vmul_pinf_num {b : ℚ} (hb : 0 < b) : Val.vmul .pinf (.num b) = .pinf := by
  simp only [Val.vmul]
  rw [if_pos hb]

theorem vmul_minf_num {b : ℚ} (hb : 0 < b) : Val.vmul .minf (.num b) = .minf := by
  simp only [Val.vmul]
  rw [if_pos hb]

theorem chain_dr_num (u : Val) :
    ∃ q, Val.fillnaV (.num 0) (Val.replInf0 (Val.vmul u (.num 100))) = .num q := by
  cases u with
  | num a => exact ⟨a * 100, rfl⟩
  | str s => exact ⟨0, rfl⟩
  | na => exact ⟨0, rfl⟩
  | pinf =>
      rw [vmul_pinf_num (by norm_num)]
      exact ⟨0, rfl⟩
  | minf =>
      rw [vmul_minf_num (by norm_num)]
      exact ⟨0, rfl⟩

theorem vdiv_zero_cases (v : Val) :
    Val.vdiv v (.num 0) = .pinf ∨ Val.vdiv v (.num 0) = .minf ∨
      Val.vdiv v (.num 0) = .na := by
  cases v with
  | num a =>
      simp only [Val.vdiv, if_pos rfl]
      by_cases h1 : 0 < a
      · rw [if_pos h1]
        exact Or.inl rfl
      · rw [if_neg h1]
        by_cases h2 : a < 0
        · rw [if_pos h2]
          exact Or.inr (Or.inl rfl)
        · rw [if_neg h2]
          exact Or.inr (Or.inr rfl)
  | pinf =>
      simp only [Val.vdiv]
      rw [if_neg (by norm_num : ¬(0:ℚ) < 0)]
      exact Or.inl rfl
  | minf =>
      simp only [Val.vdiv]
      rw [if_neg (by norm_num : ¬(0:ℚ) < 0)]
      exact Or.inr (Or.inl rfl)
  | str s => exact Or.inr (Or.inr rfl)
  | na => exact Or.inr (Or.inr rfl)

theorem chain_dr_zero (v : Val) :
    Val.fillnaV (.num 0) (Val.replInf0 (Val.vmul (Val.vdiv v (.num 0)) (.num 100))) =
      .num 0 := by
  rcases vdiv_zero_cases v with h | h | h <;> rw [h]
  · rw [vmul_pinf_num (by norm_num)]
    rfl
  · rw [vmul_minf_num (by norm_num)]
    rfl
  · rfl

theorem vdiv_ne_str (v w : Val) (s : String) : Val.vdiv v w ≠ .str s := by
  cases v <;> cases w <;> simp [Val.vdiv] <;> split_ifs <;> simp

theorem chain_eff_num (v w : Val) :
    ∃ q, Val.vmul (Val.fillnaV (.num 0) (Val.replInf0 (Val.vdiv v w))) (.num 100) =
      .num q := by
  rcases h : Val.vdiv v w with s | a | - | - | -
  · exact absurd h (vdiv_ne_str v w s)
  · exact ⟨a * 100, rfl⟩
  · exact ⟨0 * 100, rfl⟩
  · exact ⟨0 * 100, rfl⟩
  · exact ⟨0 * 100, rfl⟩

theorem chain_eff_zero (v : Val) :
    Val.vmul (Val.fillnaV (.num 0) (Val.replInf0 (Val.vdiv v (.num 0)))) (.num 100) =
      .num 0 := by
  have h0 : Val.num (0 * 100) = Val.num 0 := by norm_num
  rcases vdiv_zero_cases v with h | h | h <;> rw [h] <;> exact h0

theorem chain_health_num {v w : Val} (hv : v.isNumOrNa = true)
    (hw : w.isNumOrNa = true) :
    ∃ q, Val.fillnaV (.num 0) (Val.vdiv (Val.vmul v w) (.num 10000)) = .num q := by
  cases v <;> cases w <;> simp [Val.isNumOrNa] at hv hw
  case num.num a b =>
      refine ⟨a * b / 10000, ?_⟩
      show Val.fillnaV _ (Val.vdiv (.num (a * b)) (.num 10000)) = _
      simp only [Val.vdiv]
      rw [if_neg (by norm_num : ¬(10000:ℚ) = 0)]
      rfl
  case num.na a => exact ⟨0, rfl⟩
  case na.num b => exact ⟨0, rfl⟩
  case na.na => exact ⟨0, rfl⟩

/-! ### Column-list lemmas for `setCol` (claims C2, C3, C6) -/

theorem cols_setCol_of_mem {df : DataFrame} {c : String} (h : c ∈ df.cols)
    (xs : List Val) : (df.setCol c xs).cols = df.cols := by
  obtain ⟨j, hfi⟩ := findIdx_col_of_mem h
  unfold DataFrame.setCol
  rw [hfi]

theorem findIdx_col_of_notmem {cols : List String} {c : String} (h : c ∉ cols) :
    cols.findIdx? (· == c) = none :=
  List.findIdx?_eq_none_iff.mpr fun x hx => by
    simp only [beq_eq_false_iff_ne, ne_eq]
    rintro rfl
    exact h hx

theorem cols_setCol_of_notmem {df : DataFrame} {c : String} (h : c ∉ df.cols)
    (xs : List Val) : (df.setCol c xs).cols = df.cols ++ [c] := by
  unfold DataFrame.setCol
  rw [findIdx_col_of_notmem h]

theorem mem_cols_setCol {df : DataFrame} {c c' : String} (xs : List Val) :
    c ∈ (df.setCol c' xs).cols ↔ c ∈ df.cols ∨ c = c' := by
  by_cases h : c' ∈ df.cols
  · rw [cols_setCol_of_mem h]
    constructor
    · exact Or.inl
    · rintro (hc | rfl)
      · exact hc
      · exact h
  · rw [cols_setCol_of_notmem h]
    simp

theorem length_colVals (df : DataFrame) (c : String) :
    (df.colVals c).length = df.rows.length := by
  unfold DataFrame.colVals
  simp

theorem colVals_getD_eq_cell {df : DataFrame} {i : Nat} (hi : i < df.rows.length)
    (c : String) : (df.colVals c).getD i .na = df.cell i c := by
  unfold DataFrame.colVals DataFrame.cell
  exact getD_map_of_lt _ hi [] _

/-- Claim C2 counterexample: the claim says `create_features` never fails
when the optional `total_deaths` column is missing, but the code accesses
`covid_features["total_deaths"]` without a presence check, which raises
`KeyError` in pandas (modelled as `none`) on a table lacking that column. -/
theorem claim_C2_counterexample : create_features covidNoDeathsW vaccFeatW = none := rfl

/-- Claim C2 amended: only the `healthcare_capacity_index` inputs are
presence-checked; `create_features` fails exactly when one of the columns it
accesses unconditionally — `total_deaths`, `total_cases` on the case table,
`country`, `people_vaccinated_per_hundred`, `people_fully_vaccinated`,
`people_vaccinated` on the vaccination table — is absent. -/
theorem claim_C2_feature_presence (covid_df vacc_df : DataFrame) :
    create_features covid_df vacc_df = none ↔
      ¬("total_deaths" ∈ covid_df.cols ∧ "total_cases" ∈ covid_df.cols ∧
        "country" ∈ vacc_df.cols ∧ "people_vaccinated_per_hundred" ∈ vacc_df.cols ∧
        "people_fully_vaccinated" ∈ vacc_df.cols ∧ "people_vaccinated" ∈ vacc_df.cols) := by
  unfold create_features
  by_cases h1 : "total_deaths" ∈ covid_df.cols <;>
    by_cases h2 : "total_cases" ∈ covid_df.cols <;>
    by_cases h3 : "country" ∈ vacc_df.cols <;>
    by_cases h4 : "people_vaccinated_per_hundred" ∈ vacc_df.cols <;>
    by_cases h5 : "people_fully_vaccinated" ∈ vacc_df.cols <;>
    by_cases h6 : "people_vaccinated" ∈ vacc_df.cols <;>
    simp [h1, h2, h3, h4, h5, h6, mem_cols_setCol]

/-! ### Series and feature lemmas (claims C3, C6) -/

theorem length_deathRateSeries (df : DataFrame) :
    (deathRateSeries df).length = df.rows.length := by
  unfold deathRateSeries
  simp [length_colVals]

theorem length_healthSeries (df : DataFrame) :
    (healthSeries df).length = df.rows.length := by
  unfold healthSeries
  simp [length_colVals]

theorem length_effSeries (df : DataFrame) :
    (effSeries df).length = df.rows.length := by
  unfold effSeries
  simp [length_colVals]

theorem deathRateSeries_getD {df : DataFrame} {i : Nat} (hi : i < df.rows.length) :
    (deathRateSeries df).getD i .na =
      Val.fillnaV (.num 0) (Val.replInf0 (Val.vmul
        (Val.vdiv (df.cell i "total_deaths") (df.cell i "total_cases")) (.num 100))) := by
  unfold deathRateSeries
  have hz : i < (List.zipWith Val.vdiv (df.colVals "total_deaths")
      (df.colVals "total_cases")).length := by
    simp [length_colVals]
    omega
  rw [getD_map_of_lt _ hz Val.na Val.na,
    getD_zipWith_of_lt _ (by rw [length_colVals]; omega) (by rw [length_colVals]; omega)
      Val.na Val.na Val.na,
    colVals_getD_eq_cell hi, colVals_getD_eq_cell hi]

theorem healthSeries_getD {df : DataFrame} {i : Nat} (hi : i < df.rows.length) :
    (healthSeries df).getD i .na =
      Val.fillnaV (.num 0) (Val.vdiv (Val.vmul
        (df.cell i "hospital_beds_per_thousand") (df.cell i "gdp_per_capita"))
        (.num 10000)) := by
  unfold healthSeries
  have hz : i < (List.zipWith Val.vmul (df.colVals "hospital_beds_per_thousand")
      (df.colVals "gdp_per_capita")).length := by
    simp [length_colVals]
    omega
  rw [getD_map_of_lt _ hz Val.na Val.na,
    getD_zipWith_of_lt _ (by rw [length_colVals]; omega) (by rw [length_colVals]; omega)
      Val.na Val.na Val.na,
    colVals_getD_eq_cell hi, colVals_getD_eq_cell hi]

theorem effSeries_getD {df : DataFrame} {i : Nat} (hi : i < df.rows.length) :
    (effSeries df).getD i .na =
      Val.vmul (Val.fillnaV (.num 0) (Val.replInf0 (Val.vdiv
        (df.cell i "people_fully_vaccinated") (df.cell i "people_vaccinated"))))
        (.num 100) := by
  unfold effSeries
  have hz : i < (List.zipWith Val.vdiv (df.colVals "people_fully_vaccinated")
      (df.colVals "people_vaccinated")).length := by
    simp [length_colVals]
    omega
  rw [getD_map_of_lt _ hz Val.na Val.na,
    getD_zipWith_of_lt _ (by rw [length_colVals]; omega) (by rw [length_colVals]; omega)
      Val.na Val.na Val.na,
    colVals_getD_eq_cell hi, colVals_getD_eq_cell hi]

theorem length_rows_covidFeatures (df : DataFrame) :
    (covidFeatures df).rows.length = df.rows.length := by
  simp only [covidFeatures]
  split
  · rw [length_rows_setCol (by rw [length_rows_setCol (length_deathRateSeries df).symm,
      length_healthSeries, length_rows_setCol (length_deathRateSeries df).symm]),
      length_rows_setCol (length_deathRateSeries df).symm]
  · rw [length_rows_setCol (length_deathRateSeries df).symm]

theorem covidFeatures_cell_death_rate {df : DataFrame} (hw : df.Wf) {i : Nat}
    (hi : i < df.rows.length) :
    (covidFeatures df).cell i "death_rate" = (deathRateSeries df).getD i .na := by
  have hlen1 : df.rows.length = (deathRateSeries df).length :=
    (length_deathRateSeries df).symm
  have hw1 : (df.setCol "death_rate" (deathRateSeries df)).Wf :=
    Wf_setCol hw hlen1 _
  have hlen2 : (df.setCol "death_rate" (deathRateSeries df)).rows.length =
      (healthSeries (df.setCol "death_rate" (deathRateSeries df))).length := by
    rw [length_healthSeries]
  simp only [covidFeatures]
  split
  · rw [cell_setCol_ne hw1 hlen2 (by decide) i, cell_setCol_self hw hlen1 hi]
  · rw [cell_setCol_self hw hlen1 hi]

theorem covidFeatures_cell_health {df : DataFrame} (hw : df.Wf)
    (hb : "hospital_beds_per_thousand" ∈ df.cols) (hg : "gdp_per_capita" ∈ df.cols)
    {i : Nat} (hi : i < df.rows.length) :
    (covidFeatures df).cell i "healthcare_capacity_index" =
      (healthSeries (df.setCol "death_rate" (deathRateSeries df))).getD i .na := by
  have hlen1 : df.rows.length = (deathRateSeries df).length :=
    (length_deathRateSeries df).symm
  have hw1 : (df.setCol "death_rate" (deathRateSeries df)).Wf :=
    Wf_setCol hw hlen1 _
  have hlen2 : (df.setCol "death_rate" (deathRateSeries df)).rows.length =
      (healthSeries (df.setCol "death_rate" (deathRateSeries df))).length := by
    rw [length_healthSeries]
  have hi2 : i < (df.setCol "death_rate" (deathRateSeries df)).rows.length := by
    rw [length_rows_setCol hlen1]
    omega
  simp only [covidFeatures]
  rw [if_pos (by simp [mem_cols_setCol, hb, hg])]
  rw [cell_setCol_self hw1 hlen2 hi2]

theorem cell_setCol_death_rate_ne {df : DataFrame} (hw : df.Wf) {c : String}
    (hne : "death_rate" ≠ c) (i : Nat) :
    (df.setCol "death_rate" (deathRateSeries df)).cell i c = df.cell i c :=
  cell_setCol_ne hw (length_deathRateSeries df).symm hne i

theorem healthSeries_setCol_death_rate {df : DataFrame} (hw : df.Wf) {i : Nat}
    (hi : i < df.rows.length) :
    (healthSeries (df.setCol "death_rate" (deathRateSeries df))).getD i .na =
      Val.fillnaV (.num 0) (Val.vdiv (Val.vmul
        (df.cell i "hospital_beds_per_thousand") (df.cell i "gdp_per_capita"))
        (.num 10000)) := by
  have hi2 : i < (df.setCol "death_rate" (deathRateSeries df)).rows.length := by
    rw [length_rows_setCol (length_deathRateSeries df).symm]
    omega
  rw [healthSeries_getD hi2,
    cell_setCol_death_rate_ne hw (by decide) i,
    cell_setCol_death_rate_ne hw (by decide) i]

theorem create_features_some {covid_df vacc_df : DataFrame}
    (h1 : "total_deaths" ∈ covid_df.cols) (h2 : "total_cases" ∈ covid_df.cols)
    (h3 : "country" ∈ vacc_df.cols) (h4 : "people_vaccinated_per_hundred" ∈ vacc_df.cols)
    (h5 : "people_fully_vaccinated" ∈ vacc_df.cols)
    (h6 : "people_vaccinated" ∈ vacc_df.cols) :
    create_features covid_df vacc_df =
      some (covidFeatures covid_df,
        (vacc_df.setCol "vaccination_speed" (speedSeries vacc_df)).setCol
          "vaccination_efficiency"
          (effSeries (vacc_df.setCol "vaccination_speed" (speedSeries vacc_df)))) := by
  unfold create_features
  rw [if_pos (by simp [h1, h2]), if_pos (by simp [h3, h4]),
    if_pos (by simp [mem_cols_setCol, h5, h6])]

theorem length_groupDiff (ks : List Val) : ∀ (vs : List Val) (seen : List (Val × Val)),
    (groupDiff ks vs seen).length = min ks.length vs.length := by
  induction ks with
  | nil =>
      intro vs seen
      show ([] : List Val).length = _
      simp
  | cons k ks ih =>
      intro vs seen
      cases vs with
      | nil =>
          show ([] : List Val).length = _
          simp
      | cons v vs =>
          rw [groupDiff]
          by_cases hk : k = Val.na
          · simp [hk, ih, Nat.succ_min_succ]
          · simp [hk, ih, Nat.succ_min_succ]

theorem length_speedSeries (df : DataFrame) :
    (speedSeries df).length = df.rows.length := by
  unfold speedSeries
  simp [length_groupDiff, length_colVals]

/-- Claim C3: given the columns the Feature Builder accesses unconditionally,
it succeeds, and the derived `death_rate`, `healthcare_capacity_index`
(when its numeric inputs are present) and `vaccination_efficiency` columns
hold finite numbers at every row — never an infinity or a missing/undefined
value — and a zero denominator (`total_cases = 0`, `people_vaccinated = 0`,
including `0 / 0`) yields exactly 0 whatever the numerator. -/
theorem claim_C3_feature_safety (covid_df vacc_df : DataFrame)
    (hwc : covid_df.Wf) (hwv : vacc_df.Wf)
    (h1 : "total_deaths" ∈ covid_df.cols) (h2 : "total_cases" ∈ covid_df.cols)
    (h3 : "country" ∈ vacc_df.cols) (h4 : "people_vaccinated_per_hundred" ∈ vacc_df.cols)
    (h5 : "people_fully_vaccinated" ∈ vacc_df.cols)
    (h6 : "people_vaccinated" ∈ vacc_df.cols)
    (hnum : ∀ i < covid_df.rows.length,
      (covid_df.cell i "hospital_beds_per_thousand").isNumOrNa = true ∧
      (covid_df.cell i "gdp_per_capita").isNumOrNa = true) :
    ∃ cf vf, create_features covid_df vacc_df = some (cf, vf) ∧
      cf.rows.length = covid_df.rows.length ∧
      (∀ i < covid_df.rows.length, ∃ q, cf.cell i "death_rate" = .num q) ∧
      (∀ i < covid_df.rows.length, covid_df.cell i "total_cases" = .num 0 →
        cf.cell i "death_rate" = .num 0) ∧
      ("hospital_beds_per_thousand" ∈ covid_df.cols → "gdp_per_capita" ∈ covid_df.cols →
        ∀ i < covid_df.rows.length, ∃ q, cf.cell i "healthcare_capacity_index" = .num q) ∧
      (∀ i < vacc_df.rows.length, ∃ q, vf.cell i "vaccination_efficiency" = .num q) ∧
      (∀ i < vacc_df.rows.length, vacc_df.cell i "people_vaccinated" = .num 0 →
        vf.cell i "vaccination_efficiency" = .num 0) := by
  have hlenvs : vacc_df.rows.length = (speedSeries vacc_df).length :=
    (length_speedSeries vacc_df).symm
  have hwv1 : (vacc_df.setCol "vaccination_speed" (speedSeries vacc_df)).Wf :=
    Wf_setCol hwv hlenvs _
  have hlen2 : (vacc_df.setCol "vaccination_speed" (speedSeries vacc_df)).rows.length =
      (effSeries (vacc_df.setCol "vaccination_speed" (speedSeries vacc_df))).length := by
    rw [length_effSeries]
  refine ⟨covidFeatures covid_df, _, create_features_some h1 h2 h3 h4 h5 h6,
    length_rows_covidFeatures covid_df, fun i hi => ?_, fun i hi hzero => ?_,
    fun hb hg i hi => ?_, fun i hi => ?_, fun i hi hzero => ?_⟩
  · rw [covidFeatures_cell_death_rate hwc hi, deathRateSeries_getD hi]
    exact chain_dr_num _
  · rw [covidFeatures_cell_death_rate hwc hi, deathRateSeries_getD hi, hzero]
    exact chain_dr_zero _
  · rw [covidFeatures_cell_health hwc hb hg hi, healthSeries_setCol_death_rate hwc hi]
    exact chain_health_num (hnum i hi).1 (hnum i hi).2
  · have hi1 : i < (vacc_df.setCol "vaccination_speed" (speedSeries vacc_df)).rows.length := by
      rw [length_rows_setCol hlenvs]
      omega
    rw [cell_setCol_self hwv1 hlen2 hi1, effSeries_getD hi1,
      cell_setCol_ne hwv hlenvs (by decide) i, cell_setCol_ne hwv hlenvs (by decide) i]
    exact chain_eff_num _ _
  · have hi1 : i < (vacc_df.setCol "vaccination_speed" (speedSeries vacc_df)).rows.length := by
      rw [length_rows_setCol hlenvs]
      omega
    rw [cell_setCol_self hwv1 hlen2 hi1, effSeries_getD hi1,
      cell_setCol_ne hwv hlenvs (by decide) i, cell_setCol_ne hwv hlenvs (by decide) i,
      hzero]
    exact chain_eff_zero _

/-- Witness for claim C3 at concrete inputs, including a `total_cases = 0`
row and a `people_vaccinated = 0` row. -/
theorem claim_C3_witness :
    (covidFeatW.Wf ∧ vaccFeatW.Wf ∧
      "total_deaths" ∈ covidFeatW.cols ∧ "total_cases" ∈ covidFeatW.cols ∧
      "country" ∈ vaccFeatW.cols ∧ "people_vaccinated_per_hundred" ∈ vaccFeatW.cols ∧
      "people_fully_vaccinated" ∈ vaccFeatW.cols ∧ "people_vaccinated" ∈ vaccFeatW.cols ∧
      ∀ i < covidFeatW.rows.length,
        (covidFeatW.cell i "hospital_beds_per_thousand").isNumOrNa = true ∧
        (covidFeatW.cell i "gdp_per_capita").isNumOrNa = true) ∧
    (∃ cf vf, create_features covidFeatW vaccFeatW = some (cf, vf) ∧
      cf.rows.length = covidFeatW.rows.length ∧
      (∀ i < covidFeatW.rows.length, ∃ q, cf.cell i "death_rate" = .num q) ∧
      (∀ i < covidFeatW.rows.length, covidFeatW.cell i "total_cases" = .num 0 →
        cf.cell i "death_rate" = .num 0) ∧
      ("hospital_beds_per_thousand" ∈ covidFeatW.cols → "gdp_per_capita" ∈ covidFeatW.cols →
        ∀ i < covidFeatW.rows.length, ∃ q, cf.cell i "healthcare_capacity_index" = .num q) ∧
      (∀ i < vaccFeatW.rows.length, ∃ q, vf.cell i "vaccination_efficiency" = .num q) ∧
      (∀ i < vaccFeatW.rows.length, vaccFeatW.cell i "people_vaccinated" = .num 0 →
        vf.cell i "vaccination_efficiency" = .num 0)) :=
  ⟨⟨by decide, by decide, by decide, by decide, by decide, by decide, by decide,
    by decide, by decide⟩,
   claim_C3_feature_safety covidFeatW vaccFeatW (by decide) (by decide) (by decide)
     (by decide) (by decide) (by decide) (by decide) (by decide) (by decide)⟩

/-! ### Grouped-difference lemmas (claim C6) -/

theorem prevSame_lt {ks : List Val} {i j : Nat} (h : prevSame ks i = some j) :
    j < i := by
  unfold prevSame at h
  have := List.mem_of_mem_getLast? h
  have := (List.mem_filter.mp this).1
  exact List.mem_range.mp this

theorem prevSame_zero (ks : List Val) : prevSame ks 0 = none := rfl

theorem prevSame_cons (k : Val) (ks : List Val) (n : Nat) :
    prevSame (k :: ks) (n + 1) =
      match prevSame ks n with
      | some j => some (j + 1)
      | none => if k = ks.getD n .na then some 0 else none := by
  unfold prevSame
  rw [List.range_succ_eq_map, List.filter_cons, List.filter_map]
  have hcg : (List.range n).filter
        ((fun j => (k :: ks).getD j .na == (k :: ks).getD (n + 1) .na) ∘ Nat.succ) =
      (List.range n).filter (fun j => ks.getD j .na == ks.getD n .na) := by
    refine List.filter_congr fun j hj => ?_
    simp [Function.comp, List.getD_cons_succ]
  rw [hcg]
  by_cases hk : k = ks.getD n .na
  · rw [if_pos (by
      simp only [List.getD_cons_succ, List.getD_cons_zero, beq_iff_eq]
      exact hk)]
    rw [List.getLast?_cons, List.getLast?_map]
    cases ((List.range n).filter (fun j => ks.getD j .na == ks.getD n .na)).getLast? with
    | none =>
        show some 0 = if k = ks.getD n Val.na then some 0 else none
        rw [if_pos hk]
    | some j => rfl
  · rw [if_neg (by
      simp only [List.getD_cons_succ, List.getD_cons_zero, beq_iff_eq]
      exact hk)]
    rw [List.getLast?_map]
    cases ((List.range n).filter (fun j => ks.getD j .na == ks.getD n .na)).getLast? with
    | none =>
        show (none : Option Nat) = if k = ks.getD n Val.na then some 0 else none
        rw [if_neg hk]
    | some j => rfl

/-- Characterisation of `groupby(country)[col].diff()` (state-passing model)
by the "previous row of the same group" view: at row `i`, the result is the
value minus the value at the greatest earlier index with the same non-missing
key; with no such index, the last value of that key recorded in `seen`; `na`
for the first group occurrence or a missing key. -/
theorem groupDiff_getD (ks : List Val) :
    ∀ (vs : List Val) (seen : List (Val × Val)), ks.length = vs.length →
      ∀ i < ks.length,
        (groupDiff ks vs seen).getD i .na =
          if ks.getD i .na = .na then .na
          else
            match prevSame ks i with
            | some j => Val.vsub (vs.getD i .na) (vs.getD j .na)
            | none =>
                match (seen.find? (fun p => p.1 == ks.getD i .na)).map Prod.snd with
                | some prev => Val.vsub (vs.getD i .na) prev
                | none => .na := by
  induction ks with
  | nil =>
      intro vs seen hlen i hi
      exact absurd hi (by simp)
  | cons k ks ih =>
      intro vs seen hlen i hi
      cases vs with
      | nil => simp at hlen
      | cons v vs =>
          have hlen2 : ks.length = vs.length := by simpa using hlen
          rw [groupDiff]
          by_cases hk : k = Val.na
          · rw [if_pos hk]
            cases i with
            | zero =>
                rw [List.getD_cons_zero, List.getD_cons_zero, if_pos hk]
            | succ n =>
                have hn : n < ks.length := by simpa using hi
                rw [List.getD_cons_succ, List.getD_cons_succ, List.getD_cons_succ,
                  ih vs seen hlen2 n hn]
                by_cases hK : ks.getD n Val.na = Val.na
                · rw [if_pos hK, if_pos hK]
                · rw [if_neg hK, if_neg hK]
                  cases hps : prevSame ks n with
                  | some j =>
                      have hcons : prevSame (k :: ks) (n + 1) = some (j + 1) := by
                        rw [prevSame_cons, hps]
                      rw [hcons]
                      show Val.vsub (vs.getD n Val.na) (vs.getD j Val.na) =
                        Val.vsub (vs.getD n Val.na) ((v :: vs).getD (j + 1) Val.na)
                      rw [List.getD_cons_succ]
                  | none =>
                      have hne : ¬k = ks.getD n Val.na := by
                        rw [hk]
                        exact fun h => hK h.symm
                      have hcons : prevSame (k :: ks) (n + 1) = none := by
                        rw [prevSame_cons, hps]
                        exact if_neg hne
                      rw [hcons]
          · rw [if_neg hk]
            cases i with
            | zero =>
                rw [List.getD_cons_zero, List.getD_cons_zero, if_neg hk,
                  List.getD_cons_zero, prevSame_zero]
                cases (seen.find? (fun p => p.1 == k)).map Prod.snd with
                | none => rfl
                | some prev => rfl
            | succ n =>
                have hn : n < ks.length := by simpa using hi
                rw [List.getD_cons_succ, List.getD_cons_succ, List.getD_cons_succ,
                  ih vs ((k, v) :: seen) hlen2 n hn]
                by_cases hK : ks.getD n Val.na = Val.na
                · rw [if_pos hK, if_pos hK]
                · rw [if_neg hK, if_neg hK]
                  cases hps : prevSame ks n with
                  | some j =>
                      have hcons : prevSame (k :: ks) (n + 1) = some (j + 1) := by
                        rw [prevSame_cons, hps]
                      rw [hcons]
                      show Val.vsub (vs.getD n Val.na) (vs.getD j Val.na) =
                        Val.vsub (vs.getD n Val.na) ((v :: vs).getD (j + 1) Val.na)
                      rw [List.getD_cons_succ]
                  | none =>
                      by_cases hkK : k = ks.getD n Val.na
                      · have hcons : prevSame (k :: ks) (n + 1) = some 0 := by
                          rw [prevSame_cons, hps]
                          exact if_pos hkK
                        rw [hcons]
                        have hfind : ((k, v) :: seen).find?
                            (fun p => p.1 == ks.getD n Val.na) = some (k, v) :=
                          List.find?_cons_of_pos _ (by simpa using hkK)
                        rw [hfind]
                        show Val.vsub (vs.getD n Val.na) v =
                          Val.vsub (vs.getD n Val.na) ((v :: vs).getD 0 Val.na)
                        rw [List.getD_cons_zero]
                      · have hcons : prevSame (k :: ks) (n + 1) = none := by
                          rw [prevSame_cons, hps]
                          exact if_neg hkK
                        rw [hcons]
                        have hfind : ((k, v) :: seen).find?
                            (fun p => p.1 == ks.getD n Val.na) =
                            seen.find? (fun p => p.1 == ks.getD n Val.na) :=
                          List.find?_cons_of_neg _ (by simpa using hkK)
                        rw [hfind]

theorem speedSeries_getD {df : DataFrame} {i : Nat} (hi : i < df.rows.length) :
    (speedSeries df).getD i .na =
      if df.cell i "country" = .na then .num 0
      else
        match prevSame (df.colVals "country") i with
        | some j => Val.fillnaV (.num 0)
            (Val.vsub (df.cell i "people_vaccinated_per_hundred")
              (df.cell j "people_vaccinated_per_hundred"))
        | none => .num 0 := by
  have hki : i < (df.colVals "country").length := by
    rw [length_colVals]
    omega
  have hig : i < (groupDiff (df.colVals "country")
      (df.colVals "people_vaccinated_per_hundred") []).length := by
    rw [length_groupDiff, length_colVals, length_colVals]
    simpa using hi
  unfold speedSeries
  rw [getD_map_of_lt _ hig Val.na Val.na,
    groupDiff_getD _ _ [] (by rw [length_colVals, length_colVals]) i hki,
    colVals_getD_eq_cell hi]
  by_cases hna : df.cell i "country" = .na
  · rw [if_pos hna, if_pos hna]
    rfl
  · rw [if_neg hna, if_neg hna]
    cases hps : prevSame (df.colVals "country") i with
    | some j =>
        have hj : j < df.rows.length := by
          have := prevSame_lt hps
          omega
        show Val.fillnaV (.num 0) (Val.vsub
            ((df.colVals "people_vaccinated_per_hundred").getD i .na)
            ((df.colVals "people_vaccinated_per_hundred").getD j .na)) =
          Val.fillnaV (.num 0) (Val.vsub
            (df.cell i "people_vaccinated_per_hundred")
            (df.cell j "people_vaccinated_per_hundred"))
        rw [colVals_getD_eq_cell hi, colVals_getD_eq_cell hj]
    | none => rfl

/-- Claim C6: `vaccination_speed` is the per-country day-over-day difference
of `people_vaccinated_per_hundred`, computed within each country group while
preserving the table's existing row order (each row is diffed against the
nearest earlier row of the same country); the first observation of a country
— and any row with a missing country key — is mapped to 0, and a difference
against a missing value is mapped to 0 by the final `fillna(0)`. -/
theorem claim_C6_vaccination_speed (covid_df vacc_df : DataFrame)
    (hwv : vacc_df.Wf)
    (h1 : "total_deaths" ∈ covid_df.cols) (h2 : "total_cases" ∈ covid_df.cols)
    (h3 : "country" ∈ vacc_df.cols) (h4 : "people_vaccinated_per_hundred" ∈ vacc_df.cols)
    (h5 : "people_fully_vaccinated" ∈ vacc_df.cols)
    (h6 : "people_vaccinated" ∈ vacc_df.cols) :
    ∃ cf vf, create_features covid_df vacc_df = some (cf, vf) ∧
      ∀ i < vacc_df.rows.length,
        vf.cell i "vaccination_speed" =
          if vacc_df.cell i "country" = .na then .num 0
          else
            match prevSame (vacc_df.colVals "country") i with
            | some j => Val.fillnaV (.num 0)
                (Val.vsub (vacc_df.cell i "people_vaccinated_per_hundred")
                  (vacc_df.cell j "people_vaccinated_per_hundred"))
            | none => .num 0 := by
  have hlenvs : vacc_df.rows.length = (speedSeries vacc_df).length :=
    (length_speedSeries vacc_df).symm
  have hwv1 : (vacc_df.setCol "vaccination_speed" (speedSeries vacc_df)).Wf :=
    Wf_setCol hwv hlenvs _
  have hlen2 : (vacc_df.setCol "vaccination_speed" (speedSeries vacc_df)).rows.length =
      (effSeries (vacc_df.setCol "vaccination_speed" (speedSeries vacc_df))).length := by
    rw [length_effSeries]
  refine ⟨_, _, create_features_some h1 h2 h3 h4 h5 h6, fun i hi => ?_⟩
  rw [cell_setCol_ne hwv1 hlen2 (by decide) i,
    cell_setCol_self hwv hlenvs hi]
  exact speedSeries_getD hi

/-- Witness for claim C6, with the spec §8 example checked concretely:
country "Y" with `people_vaccinated_per_hundred` = [5, 8, 8, 15] gets
`vaccination_speed` = [0, 3, 0, 7]. -/
theorem claim_C6_witness :
    (vaccFeatW.Wf ∧ "total_deaths" ∈ covidFeatW.cols ∧ "total_cases" ∈ covidFeatW.cols ∧
      "country" ∈ vaccFeatW.cols ∧ "people_vaccinated_per_hundred" ∈ vaccFeatW.cols ∧
      "people_fully_vaccinated" ∈ vaccFeatW.cols ∧ "people_vaccinated" ∈ vaccFeatW.cols) ∧
    (∃ cf vf, create_features covidFeatW vaccFeatW = some (cf, vf) ∧
      ∀ i < vaccFeatW.rows.length,
        vf.cell i "vaccination_speed" =
          if vaccFeatW.cell i "country" = .na then .num 0
          else
            match prevSame (vaccFeatW.colVals "country") i with
            | some j => Val.fillnaV (.num 0)
                (Val.vsub (vaccFeatW.cell i "people_vaccinated_per_hundred")
                  (vaccFeatW.cell j "people_vaccinated_per_hundred"))
            | none => .num 0) ∧
    (create_features covidFeatW vaccFeatW).map (fun p =>
        [p.2.cell 0 "vaccination_speed", p.2.cell 1 "vaccination_speed",
         p.2.cell 2 "vaccination_speed", p.2.cell 3 "vaccination_speed"]) =
      some [.num 0, .num 3, .num 0, .num 7] :=
  ⟨⟨by decide, by decide, by decide, by decide, by decide, by decide, by decide⟩,
   claim_C6_vaccination_speed covidFeatW vaccFeatW (by decide) (by decide) (by decide)
     (by decide) (by decide) (by decide) (by decide),
   by
     have h : (create_features covidFeatW vaccFeatW).map (fun p =>
         [p.2.cell 0 "vaccination_speed", p.2.cell 1 "vaccination_speed",
          p.2.cell 2 "vaccination_speed", p.2.cell 3 "vaccination_speed"]) =
         some [.num 0, .num (8 - 5), .num (8 - 8), .num (15 - 8)] := rfl
     rw [h]
     norm_num⟩

/-! ### Integrator lemmas (claim C1) -/

theorem cols_groupLastByCountry (df : DataFrame) :
    (groupLastByCountry df).cols = "country" :: df.cols.filter (fun c => c != "country") :=
  rfl

theorem rows_groupLastByCountry (df : DataFrame) :
    (groupLastByCountry df).rows = (distinctCountries (sortByDate df)).map (fun c =>
      c :: (df.cols.filter (fun c2 => c2 != "country")).map (fun col =>
        lastNonNa (((sortByDate df).rows.filter
          (fun r => cellRow df.cols r "country" == c)).map
          (fun r => cellRow df.cols r col)))) :=
  rfl

theorem length_rows_groupLastByCountry (df : DataFrame) :
    (groupLastByCountry df).rows.length = (distinctCountries (sortByDate df)).length := by
  rw [rows_groupLastByCountry]
  simp

theorem Wf_groupLastByCountry (df : DataFrame) : (groupLastByCountry df).Wf := by
  intro r hr
  rw [rows_groupLastByCountry] at hr
  rw [cols_groupLastByCountry]
  obtain ⟨c, -, rfl⟩ := List.mem_map.mp hr
  simp

theorem getD_rows_groupLastByCountry {df : DataFrame} {k : Nat}
    (hk : k < (groupLastByCountry df).rows.length) :
    (groupLastByCountry df).rows.getD k [] =
      ((distinctCountries (sortByDate df)).getD k .na) ::
        (df.cols.filter (fun c2 => c2 != "country")).map (fun col =>
          lastNonNa (((sortByDate df).rows.filter
            (fun r => cellRow df.cols r "country" ==
              (distinctCountries (sortByDate df)).getD k .na)).map
            (fun r => cellRow df.cols r col))) := by
  rw [length_rows_groupLastByCountry] at hk
  rw [rows_groupLastByCountry, getD_map_of_lt _ hk Val.na []]

theorem cell_groupLastByCountry_country {df : DataFrame} {k : Nat}
    (hk : k < (groupLastByCountry df).rows.length) :
    (groupLastByCountry df).cell k "country" =
      (distinctCountries (sortByDate df)).getD k .na := by
  unfold DataFrame.cell
  rw [getD_rows_groupLastByCountry hk, cols_groupLastByCountry]
  have hfi : ("country" :: df.cols.filter (fun c => c != "country")).findIdx?
      (· == "country") = some 0 := by
    rw [List.findIdx?_cons]
    rfl
  rw [cellRow_of_findIdx hfi, List.getD_cons_zero]

theorem cell_groupLastByCountry {df : DataFrame} {col : String}
    (hcol : col ∈ df.cols) (hne : col ≠ "country") {k : Nat}
    (hk : k < (groupLastByCountry df).rows.length) :
    (groupLastByCountry df).cell k col =
      lastNonNa (((sortByDate df).rows.filter
        (fun r => cellRow df.cols r "country" ==
          (distinctCountries (sortByDate df)).getD k .na)).map
        (fun r => cellRow df.cols r col)) := by
  unfold DataFrame.cell
  rw [getD_rows_groupLastByCountry hk, cols_groupLastByCountry]
  have hmemf : col ∈ df.cols.filter (fun c => c != "country") :=
    List.mem_filter.mpr ⟨hcol, by simpa using hne⟩
  obtain ⟨j, hfj⟩ := findIdx_col_of_mem hmemf
  obtain ⟨hjlen, hjcol⟩ := findIdx_col_eq hfj
  have hfi : ("country" :: df.cols.filter (fun c => c != "country")).findIdx?
      (· == col) = some (j + 1) := by
    rw [List.findIdx?_cons,
      if_neg (by simpa using fun h => hne h.symm), List.findIdx?_succ, hfj]
    rfl
  rw [cellRow_of_findIdx hfi, List.getD_cons_succ,
    getD_map_of_lt _ hjlen "" Val.na]
  have : (df.cols.filter (fun c => c != "country")).getD j "" = col := by
    rw [List.getD_eq_getElem?_getD, List.getElem?_eq_getElem hjlen]
    exact hjcol
  rw [this]

theorem cols_mergeLeftCountry (l r : DataFrame) :
    (mergeLeftCountry l r).cols =
      l.cols.map (fun c => if c != "country" && r.cols.contains c then c ++ "_covid" else c)
        ++ (r.cols.filter (fun c => c != "country")).map
          (fun c => if l.cols.contains c then c ++ "_vacc" else c) :=
  rfl

theorem rows_mergeLeftCountry (l r : DataFrame) :
    (mergeLeftCountry l r).rows = l.rows.map (fun lr =>
      match r.rows.find? (fun rr =>
          cellRow r.cols rr "country" == cellRow l.cols lr "country") with
      | some rr => lr ++ (r.cols.filter (fun c => c != "country")).map
          (fun c => cellRow r.cols rr c)
      | none => lr ++ ((r.cols.filter (fun c => c != "country")).map
          (fun c => if l.cols.contains c then c ++ "_vacc" else c)).map
          (fun _ => Val.na)) :=
  rfl

theorem length_rows_mergeLeftCountry (l r : DataFrame) :
    (mergeLeftCountry l r).rows.length = l.rows.length := by
  rw [rows_mergeLeftCountry]
  simp

theorem findIdx_country_merge_groupLast (covid_df vacc_df : DataFrame) :
    (mergeLeftCountry (groupLastByCountry covid_df)
        (groupLastByCountry vacc_df)).cols.findIdx? (· == "country") = some 0 :=
  rfl

/-- The merged row `k` is the covid per-country row with the vaccination part
appended (values when the country matches, missing markers otherwise). -/
theorem getD_rows_merge_groupLast {covid_df vacc_df : DataFrame} {k : Nat}
    (hk : k < (groupLastByCountry covid_df).rows.length) :
    (mergeLeftCountry (groupLastByCountry covid_df)
        (groupLastByCountry vacc_df)).rows.getD k [] =
      ((groupLastByCountry covid_df).rows.getD k []) ++
        (match (groupLastByCountry vacc_df).rows.find? (fun rr =>
            cellRow (groupLastByCountry vacc_df).cols rr "country" ==
              cellRow (groupLastByCountry covid_df).cols
                ((groupLastByCountry covid_df).rows.getD k []) "country") with
        | some rr => ((groupLastByCountry vacc_df).cols.filter
            (fun c => c != "country")).map
            (fun c => cellRow (groupLastByCountry vacc_df).cols rr c)
        | none => (((groupLastByCountry vacc_df).cols.filter
            (fun c => c != "country")).map
            (fun c => if (groupLastByCountry covid_df).cols.contains c
              then c ++ "_vacc" else c)).map (fun _ => Val.na)) := by
  rw [rows_mergeLeftCountry, getD_map_of_lt _ hk [] []]
  cases (groupLastByCountry vacc_df).rows.find? (fun rr =>
      cellRow (groupLastByCountry vacc_df).cols rr "country" ==
        cellRow (groupLastByCountry covid_df).cols
          ((groupLastByCountry covid_df).rows.getD k []) "country") with
  | some rr => rfl
  | none => rfl

theorem cellRow_groupLast_country {df : DataFrame} {k : Nat}
    (hk : k < (groupLastByCountry df).rows.length) :
    cellRow (groupLastByCountry df).cols ((groupLastByCountry df).rows.getD k [])
        "country" = (distinctCountries (sortByDate df)).getD k .na :=
  cell_groupLastByCountry_country hk

theorem cell_merge_groupLast_country {covid_df vacc_df : DataFrame} {k : Nat}
    (hk : k < (groupLastByCountry covid_df).rows.length) :
    (mergeLeftCountry (groupLastByCountry covid_df)
        (groupLastByCountry vacc_df)).cell k "country" =
      (distinctCountries (sortByDate covid_df)).getD k .na := by
  unfold DataFrame.cell
  rw [cellRow_of_findIdx (findIdx_country_merge_groupLast covid_df vacc_df),
    getD_rows_merge_groupLast hk, getD_rows_groupLastByCountry hk,
    List.cons_append, List.getD_cons_zero]

theorem cellRow_groupLast_vacc_country {vacc_df : DataFrame} {rr : List Val}
    (hrr : rr ∈ (groupLastByCountry vacc_df).rows) :
    ∃ c, c ∈ distinctCountries (sortByDate vacc_df) ∧
      cellRow (groupLastByCountry vacc_df).cols rr "country" = c := by
  rw [rows_groupLastByCountry] at hrr
  obtain ⟨c, hc, rfl⟩ := List.mem_map.mp hrr
  refine ⟨c, hc, ?_⟩
  rw [cols_groupLastByCountry]
  have hfi : ("country" :: vacc_df.cols.filter (fun c => c != "country")).findIdx?
      (· == "country") = some 0 := by
    rw [List.findIdx?_cons]
    rfl
  rw [cellRow_of_findIdx hfi, List.getD_cons_zero]

theorem merge_row_unmatched {covid_df vacc_df : DataFrame} {k : Nat}
    (hk : k < (groupLastByCountry covid_df).rows.length)
    (hfind : (groupLastByCountry vacc_df).rows.find? (fun rr =>
        cellRow (groupLastByCountry vacc_df).cols rr "country" ==
          cellRow (groupLastByCountry covid_df).cols
            ((groupLastByCountry covid_df).rows.getD k []) "country") = none) :
    (mergeLeftCountry (groupLastByCountry covid_df)
        (groupLastByCountry vacc_df)).rows.getD k [] =
      ((groupLastByCountry covid_df).rows.getD k []) ++
        (((groupLastByCountry vacc_df).cols.filter (fun c => c != "country")).map
          (fun c => if (groupLastByCountry covid_df).cols.contains c
            then c ++ "_vacc" else c)).map (fun _ => Val.na) := by
  rw [getD_rows_merge_groupLast hk, hfind]

/-- Claim C1 (amended): `integrate_datasets` succeeds given `country` and
`date` in both tables; its output has one row per distinct non-missing
case/death country (groups ascending, `NaN` keys dropped, as pandas
`groupby`); the case/death part of each output row is the per-country
reduction of `groupLastByCountry`, which holds — for each column separately —
the last non-missing value of that country's date-sorted rows (pandas
`GroupBy.last`), not the table's literal last row; a country with no
vaccination match gets missing vaccination fields; and colliding column
names such as `date` are carried with the `_covid` / `_vacc` suffixes. -/
theorem claim_C1_integrator (covid_df vacc_df : DataFrame)
    (hc1 : "date" ∈ covid_df.cols) (hc2 : "country" ∈ covid_df.cols)
    (hv1 : "date" ∈ vacc_df.cols) (hv2 : "country" ∈ vacc_df.cols) :
    ∃ out, integrate_datasets covid_df vacc_df = some out ∧
      out.rows.length = (distinctCountries (sortByDate covid_df)).length ∧
      (∀ k, k < out.rows.length →
        out.cell k "country" = (distinctCountries (sortByDate covid_df)).getD k .na) ∧
      (∀ k, k < out.rows.length → ∀ j, j < (groupLastByCountry covid_df).cols.length →
        (out.rows.getD k []).getD j .na =
          ((groupLastByCountry covid_df).rows.getD k []).getD j .na) ∧
      (∀ k, k < out.rows.length → ∀ col ∈ covid_df.cols, col ≠ "country" →
        (groupLastByCountry covid_df).cell k col =
          lastNonNa (((sortByDate covid_df).rows.filter
            (fun r => cellRow covid_df.cols r "country" ==
              (distinctCountries (sortByDate covid_df)).getD k .na)).map
            (fun r => cellRow covid_df.cols r col))) ∧
      (∀ k, k < out.rows.length →
        (out.rows.getD k []).length = (groupLastByCountry covid_df).cols.length +
          ((groupLastByCountry vacc_df).cols.filter (fun c => c != "country")).length) ∧
      (∀ k, k < out.rows.length →
        out.cell k "country" ∉ distinctCountries (sortByDate vacc_df) →
        ∀ m, m < ((groupLastByCountry vacc_df).cols.filter
            (fun c => c != "country")).length →
          (out.rows.getD k []).getD
            ((groupLastByCountry covid_df).cols.length + m) .na = .na) ∧
      ("country" ∈ out.cols ∧ "date_covid" ∈ out.cols ∧ "date_vacc" ∈ out.cols) := by
  have hint : integrate_datasets covid_df vacc_df =
      some (mergeLeftCountry (groupLastByCountry covid_df)
        (groupLastByCountry vacc_df)) := by
    unfold integrate_datasets
    rw [if_pos (by simp [hc1, hc2, hv1, hv2])]
  have hlen : (mergeLeftCountry (groupLastByCountry covid_df)
      (groupLastByCountry vacc_df)).rows.length =
      (groupLastByCountry covid_df).rows.length :=
    length_rows_mergeLeftCountry _ _
  have hwg := Wf_groupLastByCountry covid_df
  have hrowlen : ∀ k, k < (groupLastByCountry covid_df).rows.length →
      ((groupLastByCountry covid_df).rows.getD k []).length =
        (groupLastByCountry covid_df).cols.length := by
    intro k hk
    refine hwg _ ?_
    rw [List.getD_eq_getElem?_getD, List.getElem?_eq_getElem hk]
    exact List.getElem_mem hk
  have hmatchlen : ∀ k, k < (groupLastByCountry covid_df).rows.length →
      (mergeLeftCountry (groupLastByCountry covid_df)
        (groupLastByCountry vacc_df)).rows.getD k [] =
        ((groupLastByCountry covid_df).rows.getD k []) ++
          (match (groupLastByCountry vacc_df).rows.find? (fun rr =>
              cellRow (groupLastByCountry vacc_df).cols rr "country" ==
                cellRow (groupLastByCountry covid_df).cols
                  ((groupLastByCountry covid_df).rows.getD k []) "country") with
          | some rr => ((groupLastByCountry vacc_df).cols.filter
              (fun c => c != "country")).map
              (fun c => cellRow (groupLastByCountry vacc_df).cols rr c)
          | none => (((groupLastByCountry vacc_df).cols.filter
              (fun c => c != "country")).map
              (fun c => if (groupLastByCountry covid_df).cols.contains c
                then c ++ "_vacc" else c)).map (fun _ => Val.na)) :=
    fun k hk => getD_rows_merge_groupLast hk
  refine ⟨_, hint, by rw [hlen, length_rows_groupLastByCountry],
    fun k hk => cell_merge_groupLast_country (by omega),
    fun k hk j hj => ?_, fun k hk col hcol hne => ?_, fun k hk => ?_,
    fun k hk hnomatch m hm => ?_, ?_, ?_, ?_⟩
  · rw [hmatchlen k (by omega)]
    exact List.getD_append _ _ _ _ (by rw [hrowlen k (by omega)]; omega)
  · exact cell_groupLastByCountry hcol hne (by omega)
  · rw [hmatchlen k (by omega), List.length_append, hrowlen k (by omega)]
    cases (groupLastByCountry vacc_df).rows.find? (fun rr =>
        cellRow (groupLastByCountry vacc_df).cols rr "country" ==
          cellRow (groupLastByCountry covid_df).cols
            ((groupLastByCountry covid_df).rows.getD k []) "country") with
    | some rr => simp
    | none => simp
  · have hkg : k < (groupLastByCountry covid_df).rows.length := by omega
    have hfind : (groupLastByCountry vacc_df).rows.find? (fun rr =>
        cellRow (groupLastByCountry vacc_df).cols rr "country" ==
          cellRow (groupLastByCountry covid_df).cols
            ((groupLastByCountry covid_df).rows.getD k []) "country") = none := by
      rw [List.find?_eq_none]
      intro rr hrr
      obtain ⟨c, hcmem, hcc⟩ := cellRow_groupLast_vacc_country hrr
      rw [hcc, cellRow_groupLast_country hkg]
      rw [cell_merge_groupLast_country hkg] at hnomatch
      simp only [beq_iff_eq]
      rintro rfl
      exact hnomatch hcmem
    rw [merge_row_unmatched hkg hfind,
      List.getD_eq_getElem?_getD,
      List.getElem?_append_right (by rw [hrowlen k hkg]; omega),
      hrowlen k hkg]
    have hsub : (groupLastByCountry covid_df).cols.length + m -
        (groupLastByCountry covid_df).cols.length = m := by omega
    rw [hsub]
    rw [List.getElem?_map, List.getElem?_map,
      List.getElem?_eq_getElem (by simpa using hm)]
    rfl
  · rw [cols_mergeLeftCountry, cols_groupLastByCountry]
    exact List.mem_append_left _ (by
      refine List.mem_map.mpr ⟨"country", List.mem_cons_self _ _, ?_⟩
      rfl)
  · rw [cols_mergeLeftCountry]
    refine List.mem_append_left _ (List.mem_map.mpr ⟨"date", ?_, ?_⟩)
    · rw [cols_groupLastByCountry]
      exact List.mem_cons_of_mem _ (List.mem_filter.mpr ⟨hc1, by decide⟩)
    · have hcond : ("date" != "country" &&
          (groupLastByCountry vacc_df).cols.contains "date") = true := by
        rw [cols_groupLastByCountry]
        simp [hv1]
      show (if ("date" != "country" &&
          (groupLastByCountry vacc_df).cols.contains "date") = true
        then "date" ++ "_covid" else "date") = "date_covid"
      rw [if_pos hcond]
      decide
  · rw [cols_mergeLeftCountry]
    refine List.mem_append_right _ (List.mem_map.mpr ⟨"date", ?_, ?_⟩)
    · rw [cols_groupLastByCountry]
      exact List.mem_filter.mpr ⟨List.mem_cons_of_mem _
        (List.mem_filter.mpr ⟨hv1, by decide⟩), by decide⟩
    · have hcond : (groupLastByCountry covid_df).cols.contains "date" = true := by
        rw [cols_groupLastByCountry]
        simp [hc1]
      show (if (groupLastByCountry covid_df).cols.contains "date" = true
        then "date" ++ "_vacc" else "date") = "date_vacc"
      rw [if_pos hcond]
      decide

/-- Claim C1 counterexample: the claim describes the per-country reduction as
"keeping only the chronologically last row of each country", but pandas
`GroupBy.last()` takes the last NON-NULL value of each column separately.  On
a country whose last row has a missing `x` while an earlier row has `x = 5`,
`integrate_datasets` outputs `x = 5`, whereas the claim's literal last-row
reduction (`integrateSpecLastRow`, modelled from the spec's words) outputs a
missing `x` — so the two disagree. -/
theorem claim_C1_counterexample :
    integrate_datasets covIntW vacIntW ≠ integrateSpecLastRow covIntW vacIntW ∧
    (integrate_datasets covIntW vacIntW).map (fun d => d.cell 0 "x") =
      some (.num 5) ∧
    (integrateSpecLastRow covIntW vacIntW).map (fun d => d.cell 0 "x") =
      some .na :=
  ⟨by decide, by decide, by decide⟩

/-- Witness for claim C1 at a concrete pair: two case/death countries, one
("B") without a vaccination match. -/
theorem claim_C1_witness :
    ("date" ∈ covInt2W.cols ∧ "country" ∈ covInt2W.cols ∧
      "date" ∈ vacIntW.cols ∧ "country" ∈ vacIntW.cols) ∧
    (∃ out, integrate_datasets covInt2W vacIntW = some out ∧
      out.rows.length = (distinctCountries (sortByDate covInt2W)).length ∧
      (∀ k, k < out.rows.length →
        out.cell k "country" = (distinctCountries (sortByDate covInt2W)).getD k .na) ∧
      (∀ k, k < out.rows.length → ∀ j, j < (groupLastByCountry covInt2W).cols.length →
        (out.rows.getD k []).getD j .na =
          ((groupLastByCountry covInt2W).rows.getD k []).getD j .na) ∧
      (∀ k, k < out.rows.length → ∀ col ∈ covInt2W.cols, col ≠ "country" →
        (groupLastByCountry covInt2W).cell k col =
          lastNonNa (((sortByDate covInt2W).rows.filter
            (fun r => cellRow covInt2W.cols r "country" ==
              (distinctCountries (sortByDate covInt2W)).getD k .na)).map
            (fun r => cellRow covInt2W.cols r col))) ∧
      (∀ k, k < out.rows.length →
        (out.rows.getD k []).length = (groupLastByCountry covInt2W).cols.length +
          ((groupLastByCountry vacIntW).cols.filter (fun c => c != "country")).length) ∧
      (∀ k, k < out.rows.length →
        out.cell k "country" ∉ distinctCountries (sortByDate vacIntW) →
        ∀ m, m < ((groupLastByCountry vacIntW).cols.filter
            (fun c => c != "country")).length →
          (out.rows.getD k []).getD
            ((groupLastByCountry covInt2W).cols.length + m) .na = .na) ∧
      ("country" ∈ out.cols ∧ "date_covid" ∈ out.cols ∧ "date_vacc" ∈ out.cols)) :=
  ⟨⟨by decide, by decide, by decide, by decide⟩,
   claim_C1_integrator covInt2W vacIntW (by decide) (by decide) (by decide) (by decide)⟩
